import Mathlib

/-!
Verification model of the otroff build-pipeline scripts
(`src/croff/bothrc.py`, `src/croff/nrc.py`, `src/neqn/neqnrc.py`).

The filesystem is modelled as an association list from file names to
`FileInfo` (size, permission bits, an abstract content identifier).
External processes (the assembler, compiler, parser generator, strip,
and the various availability probes) are modelled by oracles supplied
in an environment structure: each oracle gives the process result
(exit code and captured output, or not-found / timed-out) and, for
build tools, the set of files the tool writes.  OS-level unlink/rename
failures (Python `OSError`) are modelled by boolean oracles keyed by
file name.  Every function is a direct translation of the
corresponding Python method; log/warning emission that does not affect
control flow or the filesystem is noted in comments but not modelled.
-/

namespace Otroff

/-- Metadata of one file: size in bytes, the executable permission bit
(`os.access(p, os.X_OK)`), the readable bit (`os.access(p, os.R_OK)`),
whether the path is a regular file (`Path.is_file`), and an abstract
content identifier standing for the file's bytes. -/
structure FileInfo where
  size : Nat
  executable : Bool
  readable : Bool
  isFile : Bool
  data : Nat
deriving DecidableEq, Repr

/-- The working directory: an association list from names to file info. -/
abbrev FS := List (String × FileInfo)

/-- Look up a file by name (first match). -/
def FS.lookup : FS → String → Option FileInfo
  | [], _ => none
  | (m, i) :: fs, n => if m = n then some i else FS.lookup fs n

/-- Python `Path.exists()`. -/
def FS.fileExists (fs : FS) (n : String) : Bool :=
  (fs.lookup n).isSome

/-- Remove every entry named `n` (Python `Path.unlink`, success case). -/
def FS.erase : FS → String → FS
  | [], _ => []
  | e :: fs, n => if e.1 = n then FS.erase fs n else e :: FS.erase fs n

/-- Create or overwrite the file named `n` (a tool writing its output). -/
def FS.set (fs : FS) (n : String) (i : FileInfo) : FS :=
  (n, i) :: fs.erase n

/-- Python `Path.rename`, success case; call sites guard that `src` exists. -/
def FS.rename (fs : FS) (src dst : String) : FS :=
  match fs.lookup src with
  | none => fs
  | some i => (fs.erase src).set dst i

/-- Apply the filesystem effect of an external tool: the list of files
it writes, applied in order. -/
def applyEffect : FS → List (String × FileInfo) → FS
  | fs, [] => fs
  | fs, e :: eff => applyEffect (fs.set e.1 e.2) eff

/-- Shell-style glob matching on characters: `*` matches any sequence
(realised as: some suffix of the remaining name matches the remaining
pattern); any other character matches itself.  Only `*` wildcards
occur in the scripts' patterns. -/
def globMatchAux : List Char → List Char → Bool
  | [], cs => cs.isEmpty
  | '*' :: ps, cs => cs.tails.any (fun suf => globMatchAux ps suf)
  | _ :: _, [] => false
  | p :: ps, c :: cs => p == c && globMatchAux ps cs

/-- Python `Path.glob(pattern)` membership test for a single name. -/
def globMatch (pat name : String) : Bool :=
  globMatchAux pat.toList name.toList

/-- Python `Path.glob(pattern)`: names of the entries matching `pat`. -/
def FS.glob (fs : FS) (pat : String) : List String :=
  (fs.filter (fun e => globMatch pat e.1)).map Prod.fst

/-- One observed external-process event.  `probe` marks the tolerant
availability/validation probes (version or help flags, `which`, or a
trial run of the built executable); `run` marks a build-relevant tool
invocation. -/
inductive Event where
  | probe (tool : String)
  | run (tool : String)
deriving DecidableEq, Repr

/-- The build-relevant tool invocations observed in a log, probes excluded. -/
def runEvents (log : List Event) : List String :=
  log.filterMap (fun e => match e with
    | .probe _ => none
    | .run t => some t)

/-- Result of `subprocess.run` for call sites that set a timeout:
normal completion with exit code and captured output, or the
`FileNotFoundError` / `TimeoutExpired` exceptional outcomes. -/
inductive ProcResult where
  | completed (exitCode : Nat) (stdout stderr : String)
  | notFound
  | timedOut
deriving DecidableEq, Repr

/-- Result of `subprocess.run` for call sites with no timeout argument
(`run_command` in nrc.py and neqnrc.py): `TimeoutExpired` cannot occur
there. -/
inductive Proc2 where
  | completed (exitCode : Nat) (stdout stderr : String)
  | notFound
deriving DecidableEq, Repr

/-- Decidable equality on `Except`, used to evaluate concrete runs. -/
instance {ε α : Type} [DecidableEq ε] [DecidableEq α] :
    DecidableEq (Except ε α) := fun a b =>
  match a, b with
  | .error e1, .error e2 =>
    if h : e1 = e2 then isTrue (by rw [h])
    else isFalse (by intro hh; cases hh; exact h rfl)
  | .ok a1, .ok a2 =>
    if h : a1 = a2 then isTrue (by rw [h])
    else isFalse (by intro hh; cases hh; exact h rfl)
  | .error _, .ok _ => isFalse (by intro hh; cases hh)
  | .ok _, .error _ => isFalse (by intro hh; cases hh)

section FSLemmas

theorem FS.lookup_erase_self (fs : FS) (m : String) :
    (fs.erase m).lookup m = none := by
  induction fs with
  | nil => rfl
  | cons e fs ih =>
    by_cases h : e.1 = m
    · simpa [FS.erase, h] using ih
    · simpa [FS.erase, FS.lookup, h] using ih

theorem FS.lookup_erase_ne (fs : FS) (m n : String) (h : n ≠ m) :
    (fs.erase m).lookup n = fs.lookup n := by
  induction fs with
  | nil => rfl
  | cons e fs ih =>
    have h3 : ¬ m = n := fun hh => h hh.symm
    by_cases h1 : e.1 = m
    · have h2 : ¬ e.1 = n := by
        intro h4; exact h (h4 ▸ h1 ▸ rfl)
      simp [FS.erase, FS.lookup, h1, h2, h3, ih]
    · by_cases h2 : e.1 = n
      · simp [FS.erase, FS.lookup, h1, h2, h]
      · simp [FS.erase, FS.lookup, h1, h2, ih]

theorem FS.lookup_set_self (fs : FS) (m : String) (i : FileInfo) :
    (fs.set m i).lookup m = some i := by
  simp [FS.set, FS.lookup]

theorem FS.lookup_set_ne (fs : FS) (m n : String) (i : FileInfo) (h : n ≠ m) :
    (fs.set m i).lookup n = fs.lookup n := by
  have h1 : ¬ m = n := fun h2 => h h2.symm
  simp [FS.set, FS.lookup, h1, FS.lookup_erase_ne fs m n h]

theorem FS.lookup_rename_other (fs : FS) (src dst n : String)
    (h1 : n ≠ src) (h2 : n ≠ dst) :
    (fs.rename src dst).lookup n = fs.lookup n := by
  unfold FS.rename
  cases h : fs.lookup src with
  | none => rfl
  | some i =>
    rw [FS.lookup_set_ne _ _ _ _ h2, FS.lookup_erase_ne _ _ _ h1]

theorem FS.lookup_rename_dst (fs : FS) (src dst : String) (i : FileInfo)
    (h : fs.lookup src = some i) :
    (fs.rename src dst).lookup dst = some i := by
  unfold FS.rename
  rw [h, FS.lookup_set_self]

theorem FS.lookup_rename_src (fs : FS) (src dst : String)
    (hne : src ≠ dst) (h : (fs.lookup src).isSome) :
    (fs.rename src dst).lookup src = none := by
  unfold FS.rename
  cases h2 : fs.lookup src with
  | none => rw [h2] at h; simp at h
  | some i =>
    rw [FS.lookup_set_ne _ _ _ _ hne, FS.lookup_erase_self]

theorem applyEffect_lookup_notin (fs : FS) (eff : List (String × FileInfo))
    (n : String) (h : ∀ e ∈ eff, e.1 ≠ n) :
    (applyEffect fs eff).lookup n = fs.lookup n := by
  induction eff generalizing fs with
  | nil => rfl
  | cons e eff ih =>
    have h1 : e.1 ≠ n := h e (by simp)
    have h2 : ∀ x ∈ eff, x.1 ≠ n := fun x hx => h x (by simp [hx])
    simp only [applyEffect]
    rw [ih (fs.set e.1 e.2) h2, FS.lookup_set_ne _ _ _ _ (fun hh => h1 hh.symm)]

end FSLemmas

/-!
TroffBuilder (src/croff/bothrc.py)

Assembles `t.s -> t.o` and `hytab.s -> hytab.o` via the system
assembler, whose conventional temporary output is `a.out`.
-/

/-- The raise sites of `AssemblyBuildError` in bothrc.py, each carrying
the data interpolated into the corresponding message string. -/
inductive ABError where
  | sourceNotFound (f : String)
  | sourceNotFile (f : String)
  | sourceNotReadable (f : String)
  | sourceEmpty (f : String)
  | assemblerUnavailable
  | assemblyFailed (src : String) (exitCode : Nat) (stdout stderr : String)
  | noTempOutput (src : String)
  | renameFailed (out : String)
  | outputNotProper (out : String)
  | assemblyTimedOut (src : String)
  | subprocessFailed (src : String)
deriving DecidableEq, Repr

/-- Outcome of a TroffBuilder entry point: either an
`AssemblyBuildError` (`ab`) or an uncaught OS-level exception (`os`,
the `FileNotFoundError` escaping `assemble_file`, which catches only
`TimeoutExpired` and `SubprocessError`). -/
inductive TroffExc where
  | ab (e : ABError)
  | os
deriving DecidableEq, Repr

/-- Oracles for the external processes and OS operations TroffBuilder
performs.  `asRun src` is the result of running the assembler on
`src`; `asEffect src` the files it writes on completion.  `unlinkOk`
and `renameOk` decide whether `Path.unlink` / `Path.rename` raise
`OSError` (keyed by the deleted name / the rename destination). -/
structure TroffEnv where
  asProbe : ProcResult
  asHelpProbe : ProcResult
  asRun : String → ProcResult
  asEffect : String → List (String × FileInfo)
  unlinkOk : String → Bool
  renameOk : String → Bool

namespace TroffBuilder

/-- `TroffBuilder._validate_assembler`: probe `as --version`; on
non-zero exit retry with `as --help`, whose exit code is ignored; a
`TimeoutExpired`/`FileNotFoundError` from either probe raises.  Probe
events are recorded only when the process actually started. -/
def validate_assembler (env : TroffEnv) : Except ABError Unit × List Event :=
  match env.asProbe with
  | .completed 0 _ _ => (.ok (), [.probe "as"])
  | .completed _ _ _ =>
    match env.asHelpProbe with
    | .completed _ _ _ => (.ok (), [.probe "as", .probe "as"])
    | .notFound => (.error .assemblerUnavailable, [.probe "as"])
    | .timedOut => (.error .assemblerUnavailable, [.probe "as", .probe "as"])
  | .notFound => (.error .assemblerUnavailable, [])
  | .timedOut => (.error .assemblerUnavailable, [.probe "as"])

/-- `TroffBuilder._validate_source_file`: existence, regular-file,
readability and non-emptiness checks, in source order. -/
def validate_source_file (fs : FS) (src : String) : Except ABError Unit :=
  match fs.lookup src with
  | none => .error (.sourceNotFound src)
  | some i =>
    if !i.isFile then .error (.sourceNotFile src)
    else if !i.readable then .error (.sourceNotReadable src)
    else if i.size = 0 then .error (.sourceEmpty src)
    else .ok ()

/-- `TroffBuilder._clean_temp_files`: delete `a.out` if present; an
`OSError` is only a warning. -/
def clean_temp_files (fs : FS) (env : TroffEnv) : FS :=
  if fs.fileExists "a.out" then
    if env.unlinkOk "a.out" then fs.erase "a.out" else fs
  else fs

/-- The final verification of `assemble_file`: the renamed output must
exist and be non-empty, else `AssemblyBuildError` is raised. -/
def verify_output (fs3 : FS) (out : String) : Except TroffExc Bool × FS :=
  match fs3.lookup out with
  | none => (.error (.ab (.outputNotProper out)), fs3)
  | some i =>
    if i.size = 0 then (.error (.ab (.outputNotProper out)), fs3)
    else (.ok true, fs3)

/-- Tail of `assemble_file` after the assembler completed with exit 0
and wrote its files: check `a.out` exists, unlink any existing output,
rename `a.out` into place, verify non-empty. -/
def place_output (fs : FS) (env : TroffEnv) (src out : String) :
    Except TroffExc Bool × FS :=
  if !(fs.fileExists "a.out") then
    (.error (.ab (.noTempOutput src)), fs)
  else if fs.fileExists out && !(env.unlinkOk out) then
    (.error (.ab (.renameFailed out)), fs)
  else if !(env.renameOk out) then
    (.error (.ab (.renameFailed out)),
      if fs.fileExists out then fs.erase out else fs)
  else
    verify_output
      ((if fs.fileExists out then fs.erase out else fs).rename "a.out" out) out

/-- `TroffBuilder.assemble_file`: validate the source, clean the
temporary output, run the assembler, and place `a.out` at `out`.  A
`FileNotFoundError` from `subprocess.run` is not caught by this method
(it catches `TimeoutExpired` and `SubprocessError` only) and escapes
as `TroffExc.os`. -/
def assemble_file (fs : FS) (env : TroffEnv) (src out : String) :
    Except TroffExc Bool × FS × List Event :=
  match validate_source_file fs src with
  | .error e => (.error (.ab e), fs, [])
  | .ok _ =>
    let fs1 := clean_temp_files fs env
    match env.asRun src with
    | .completed 0 _ _ =>
      let fs2 := applyEffect fs1 (env.asEffect src)
      let r := place_output fs2 env src out
      (r.1, r.2, [.run "as"])
    | .completed rc sout serr =>
      (.error (.ab (.assemblyFailed src rc sout serr)), fs1, [.run "as"])
    | .timedOut => (.error (.ab (.assemblyTimedOut src)), fs1, [.run "as"])
    | .notFound => (.error .os, fs1, [])

/-- `TroffBuilder.clean_output_files`: delete each existing output
file; an `OSError` is only a warning. -/
def clean_output_files (fs : FS) (env : TroffEnv) (outs : List String) : FS :=
  outs.foldl
    (fun f o =>
      if f.fileExists o then (if env.unlinkOk o then f.erase o else f) else f)
    fs

/-- The target loop of `build_all` after the assembler has been
validated and the prior outputs cleaned: assemble `t.s` then
`hytab.s`, accumulating `created_files`; on `AssemblyBuildError` clean
the temporary output and re-raise. -/
def assemble_targets (fs1 : FS) (env : TroffEnv) (plog : List Event) :
    Except TroffExc (Bool × List String) × FS × List Event :=
  match assemble_file fs1 env "t.s" "t.o" with
  | (.error (.ab e), fs2, log1) =>
    (.error (.ab e), clean_temp_files fs2 env, plog ++ log1)
  | (.error .os, fs2, log1) => (.error .os, fs2, plog ++ log1)
  | (.ok b1, fs2, log1) =>
    if b1 then
      match assemble_file fs2 env "hytab.s" "hytab.o" with
      | (.error (.ab e), fs3, log2) =>
        (.error (.ab e), clean_temp_files fs3 env, plog ++ log1 ++ log2)
      | (.error .os, fs3, log2) => (.error .os, fs3, plog ++ log1 ++ log2)
      | (.ok b2, fs3, log2) =>
        if b2 then (.ok (true, ["t.o", "hytab.o"]), fs3, plog ++ log1 ++ log2)
        else (.ok (false, ["t.o"]), fs3, plog ++ log1 ++ log2)
    else (.ok (false, []), fs2, plog ++ log1)

/-- `TroffBuilder.build_all`: validate the assembler, clean prior
outputs, then run the target loop.  The normal return is
`(success, created_files)`. -/
def build_all (fs : FS) (env : TroffEnv) :
    Except TroffExc (Bool × List String) × FS × List Event :=
  match validate_assembler env with
  | (.error e, plog) => (.error (.ab e), clean_temp_files fs env, plog)
  | (.ok _, plog) =>
    assemble_targets (clean_output_files fs env ["t.o", "hytab.o"]) env plog

end TroffBuilder

/-!
NroffBuilder (src/croff/nrc.py)

Compiles thirteen C sources with two pre-built object files into an
`a.out`, strips it, and renames it to `nroff`.
-/

/-- Configuration toggles of `NroffBuilder` set by the CLI.
`validate_sources` only controls advisory content-sniff warnings in
`check_dependencies` and never affects control flow or the
filesystem. -/
structure NrcCfg where
  backup_existing : Bool
  strip_symbols : Bool
  validate_sources : Bool
deriving DecidableEq, Repr

/-- Oracles for NroffBuilder's external processes and OS operations.
`run_command` sets no timeout, so `cc` and `strip` results are
`Proc2`.  `validateProbe` is the tolerated `nroff --help` trial run in
`validate_build` (its result is entirely ignored). -/
structure NrcEnv where
  ccResult : Proc2
  ccEffect : List (String × FileInfo)
  stripResult : Proc2
  stripEffect : List (String × FileInfo)
  validateProbe : ProcResult
  unlinkOk : String → Bool
  renameOk : String → Bool

namespace NroffBuilder

/-- The `source_files` list of `NroffBuilder.__init__`. -/
def source_files : List String :=
  ["n1.c", "n2.c", "n3.c", "n4.c", "n5.c", "n6.c", "n7.c", "n8.c",
   "n9.c", "n10.c", "ni.c", "nii.c", "ntab.c"]

/-- The `object_files` list of `NroffBuilder.__init__`. -/
def object_files : List String := ["hytab.o", "t.o"]

/-- `NroffBuilder.run_command` with `check=True` and no timeout: a
`CalledProcessError` (non-zero exit) yields `(False, msg)` with the
captured stderr appended to the message; `FileNotFoundError` yields
`(False, msg)` with no process event. -/
def run_command (r : Proc2) (tool desc : String) :
    (Bool × String) × List Event :=
  match r with
  | .completed 0 sout _ => ((true, sout), [.run tool])
  | .completed rc _ serr =>
    let base := desc ++ " failed with exit code " ++ toString rc
    let msg := if serr = "" then base else base ++ "\nError output: " ++ serr
    ((false, msg), [.run tool])
  | .notFound => ((false, "Command not found: " ++ tool), [])

/-- `NroffBuilder.check_dependencies`: collect the missing source and
object files and fail iff any is missing.  An existing-but-empty file
(or one that fails the C-content sniff, or an undersized object file)
only produces a `logger.warning` and does not affect the result. -/
def check_dependencies (fs : FS) : Bool :=
  let missing :=
    source_files.filter (fun f => !(fs.fileExists f)) ++
    object_files.filter (fun f => !(fs.fileExists f))
  missing.isEmpty

/-- `NroffBuilder.compile_and_link`: one `cc -DNROFF -n -O <sources>
<objects>` invocation; on completion the compiler writes its files
(conventionally `a.out`). -/
def compile_and_link (fs : FS) (env : NrcEnv) : Bool × FS × List Event :=
  ((run_command env.ccResult "cc" "Compiling and linking NROFF").1.1,
    (match env.ccResult with
      | .completed _ _ _ => applyEffect fs env.ccEffect
      | .notFound => fs),
    (run_command env.ccResult "cc" "Compiling and linking NROFF").2)

/-- `NroffBuilder.strip_executable`: skipped when disabled; fails when
`a.out` is absent; otherwise one `strip a.out` invocation. -/
def strip_executable (cfg : NrcCfg) (fs : FS) (env : NrcEnv) :
    Bool × FS × List Event :=
  if !cfg.strip_symbols then (true, fs, [])
  else if !(fs.fileExists "a.out") then (false, fs, [])
  else
    ((run_command env.stripResult "strip" "Stripping debugging symbols").1.1,
      (match env.stripResult with
        | .completed _ _ _ => applyEffect fs env.stripEffect
        | .notFound => fs),
      (run_command env.stripResult "strip" "Stripping debugging symbols").2)

/-- `NroffBuilder.rename_executable`: require `a.out`; unlink any
existing `nroff`; rename `a.out` to `nroff`.  An `OSError` from either
operation returns `False`. -/
def rename_executable (fs : FS) (env : NrcEnv) : Bool × FS :=
  if !(fs.fileExists "a.out") then (false, fs)
  else if fs.fileExists "nroff" && !(env.unlinkOk "nroff") then (false, fs)
  else if !(env.renameOk "nroff") then
    (false, if fs.fileExists "nroff" then fs.erase "nroff" else fs)
  else
    (true,
      (if fs.fileExists "nroff" then fs.erase "nroff" else fs).rename
        "a.out" "nroff")

/-- `NroffBuilder.validate_build`: the executable must exist and carry
the executable bit; its size is only logged, and the trailing
`nroff --help` trial run is tolerated whatever its outcome
(exceptions caught, exit code never examined). -/
def validate_build (fs : FS) (env : NrcEnv) : Bool × List Event :=
  match fs.lookup "nroff" with
  | none => (false, [])
  | some i =>
    if !i.executable then (false, [])
    else
      (true,
        match env.validateProbe with
        | .notFound => []
        | _ => [.probe "nroff"])

/-- `NroffBuilder.backup_existing_executable`: no-op when disabled or
when no `nroff` exists; otherwise unlink any stale `nroff.backup` and
rename `nroff` to it; an `OSError` returns `False`. -/
def backup_existing_executable (cfg : NrcCfg) (fs : FS) (env : NrcEnv) :
    Bool × FS :=
  if !cfg.backup_existing then (true, fs)
  else
    match fs.lookup "nroff" with
    | none => (true, fs)
    | some _ =>
      if fs.fileExists "nroff.backup" && !(env.unlinkOk "nroff.backup") then
        (false, fs)
      else if !(env.renameOk "nroff.backup") then
        (false, if fs.fileExists "nroff.backup" then fs.erase "nroff.backup"
          else fs)
      else
        (true,
          (if fs.fileExists "nroff.backup" then fs.erase "nroff.backup"
            else fs).rename "nroff" "nroff.backup")

/-- The stage at which `NroffBuilder.build` returned `False`. -/
inductive Stage where
  | backupStage
  | depsStage
  | compileStage
  | stripStage
  | renameStage
  | validateStage
deriving DecidableEq, Repr

/-- Outcome of one `NroffBuilder.build` run: the returned boolean, the
stage of the first `return False` if any, the final working
directory, and the observed process events. -/
structure RunOut where
  ok : Bool
  firstFail : Option Stage
  fs : FS
  log : List Event
deriving Repr

/-- Validation step of `NroffBuilder.build` (its final `if`). -/
def buildValidate (env : NrcEnv) (fs : FS) (logAcc : List Event) : RunOut :=
  if !(validate_build fs env).1 then
    ⟨false, some .validateStage, fs, logAcc ++ (validate_build fs env).2⟩
  else ⟨true, none, fs, logAcc ++ (validate_build fs env).2⟩

/-- Rename step of `NroffBuilder.build`. -/
def buildRename (env : NrcEnv) (fs : FS) (logAcc : List Event) : RunOut :=
  if !(rename_executable fs env).1 then
    ⟨false, some .renameStage, (rename_executable fs env).2, logAcc⟩
  else buildValidate env (rename_executable fs env).2 logAcc

/-- Strip step of `NroffBuilder.build`. -/
def buildStrip (cfg : NrcCfg) (env : NrcEnv) (fs : FS) (logAcc : List Event) :
    RunOut :=
  if !(strip_executable cfg fs env).1 then
    ⟨false, some .stripStage, (strip_executable cfg fs env).2.1,
      logAcc ++ (strip_executable cfg fs env).2.2⟩
  else buildRename env (strip_executable cfg fs env).2.1
    (logAcc ++ (strip_executable cfg fs env).2.2)

/-- Compile-and-link step of `NroffBuilder.build`. -/
def buildCompile (cfg : NrcCfg) (env : NrcEnv) (fs : FS) : RunOut :=
  if !(compile_and_link fs env).1 then
    ⟨false, some .compileStage, (compile_and_link fs env).2.1,
      (compile_and_link fs env).2.2⟩
  else buildStrip cfg env (compile_and_link fs env).2.1
    (compile_and_link fs env).2.2

/-- `NroffBuilder.build`: backup, check dependencies, compile and
link, strip, rename, validate — stopping at the first stage that
returns `False`.  The staged helper definitions above are the
successive `if not ...: return False` blocks of the method body. -/
def build (cfg : NrcCfg) (fs : FS) (env : NrcEnv) : RunOut :=
  if !(backup_existing_executable cfg fs env).1 then
    ⟨false, some .backupStage, (backup_existing_executable cfg fs env).2, []⟩
  else if !(check_dependencies (backup_existing_executable cfg fs env).2) then
    ⟨false, some .depsStage, (backup_existing_executable cfg fs env).2, []⟩
  else buildCompile cfg env (backup_existing_executable cfg fs env).2

end NroffBuilder

/-!
NeqnBuilder (src/neqn/neqnrc.py)

Runs `yacc ne.g`, compiles `ne*.c`, renames the produced executable to
`neqn`, cleans the intermediates `*.o` and `y.tab.c`, and validates.
-/

/-- Configuration toggles of `NeqnBuilder` set by the CLI.
`validate_sources` and `validate_grammar` only control advisory
content-sniff warnings and never affect control flow or the
filesystem. -/
structure NeqnCfg where
  backup_existing : Bool
  cleanup_objects : Bool
  cleanup_generated : Bool
  validate_sources : Bool
  validate_grammar : Bool
deriving DecidableEq, Repr

/-- Oracles for NeqnBuilder's external processes and OS operations.
The availability probes (`<tool> --version` with a timeout, falling
back to `which <tool>`) use the full `ProcResult`; the yacc and cc
invocations go through `run_command` with no timeout (`Proc2`).
`neqnProbe` is the tolerated trial run of the built executable in
`validate_build` (result ignored). -/
structure NeqnEnv where
  yaccProbe : ProcResult
  yaccWhich : ProcResult
  ccProbe : ProcResult
  ccWhich : ProcResult
  yaccResult : Proc2
  yaccEffect : List (String × FileInfo)
  ccResult : Proc2
  ccEffect : List (String × FileInfo)
  neqnProbe : ProcResult
  unlinkOk : String → Bool
  renameOk : String → Bool

namespace NeqnBuilder

/-- The `generated_files` list of `NeqnBuilder.__init__`. -/
def generated_files : List String := ["y.tab.c", "y.tab.h"]

/-- The `intermediate_files` patterns of `NeqnBuilder.__init__`. -/
def intermediate_files : List String := ["*.o", "y.tab.c"]

/-- Events of one `which <tool>` fallback probe (none when the `which`
binary itself is missing). -/
def whichEvents (r : ProcResult) : List Event :=
  match r with
  | .notFound => []
  | _ => [.probe "which"]

/-- Result of the `which <tool>` fallback: `returncode == 0` on
completion, `False` on `TimeoutExpired`/`FileNotFoundError`. -/
def whichOk (r : ProcResult) : Bool :=
  match r with
  | .completed 0 _ _ => true
  | _ => false

/-- `NeqnBuilder._check_tool_availability`: probe `<tool> --version`;
any completion — whatever the exit code — counts as available; on
`TimeoutExpired`/`FileNotFoundError` fall back to `which <tool>`. -/
def check_tool_availability (tool : String) (probe whichR : ProcResult) :
    Bool × List Event :=
  match probe with
  | .completed _ _ _ => (true, [.probe tool])
  | .timedOut => (whichOk whichR, [.probe tool] ++ whichEvents whichR)
  | .notFound => (whichOk whichR, whichEvents whichR)

/-- `NeqnBuilder.check_dependencies`: the grammar file must exist,
some `ne*.c` source must exist, and both tools must be available; all
four checks always run and their outcomes are collected into one
missing-items list.  Empty or implausible grammar/source content only
produces warnings. -/
def check_dependencies (fs : FS) (env : NeqnEnv) : Bool × List Event :=
  let grammarOk := fs.fileExists "ne.g"
  let sourcesOk := !(fs.glob "ne*.c").isEmpty
  let yacc := check_tool_availability "yacc" env.yaccProbe env.yaccWhich
  let cc := check_tool_availability "cc" env.ccProbe env.ccWhich
  (grammarOk && sourcesOk && yacc.1 && cc.1, yacc.2 ++ cc.2)

/-- `NeqnBuilder.run_command`: like `NroffBuilder.run_command`, with
the `check_return_code` parameter (always `True` at the existing call
sites). -/
def run_command (r : Proc2) (tool desc : String)
    (check_return_code : Bool) : (Bool × String) × List Event :=
  match r with
  | .completed 0 sout _ => ((true, sout), [.run tool])
  | .completed rc sout serr =>
    if check_return_code then
      let base := desc ++ " failed with exit code " ++ toString rc
      let msg := if serr = "" then base else base ++ "\nError output: " ++ serr
      ((false, msg), [.run tool])
    else ((true, sout), [.run tool])
  | .notFound => ((false, "Command not found: " ++ tool), [])

/-- `NeqnBuilder.generate_parser` (the Lean name drops the
underscore): run `yacc ne.g`; when it exits 0, the existence of each
declared generated file is checked but a missing one only produces a
`logger.warning` — the stage still returns the invocation's success
flag. -/
def generateParser (fs : FS) (env : NeqnEnv) : Bool × FS × List Event :=
  ((run_command env.yaccResult "yacc" "Generating parser from grammar"
      true).1.1,
    (match env.yaccResult with
      | .completed _ _ _ => applyEffect fs env.yaccEffect
      | .notFound => fs),
    (run_command env.yaccResult "yacc" "Generating parser from grammar"
      true).2)

/-- `NeqnBuilder.compile_sources`: re-glob `ne*.c`; fail if none;
otherwise one `cc -O -n -s <sources>` invocation. -/
def compile_sources (fs : FS) (env : NeqnEnv) : Bool × FS × List Event :=
  if (fs.glob "ne*.c").isEmpty then (false, fs, [])
  else
    ((run_command env.ccResult "cc" "Compiling source files" true).1.1,
      (match env.ccResult with
        | .completed _ _ _ => applyEffect fs env.ccEffect
        | .notFound => fs),
      (run_command env.ccResult "cc" "Compiling source files" true).2)

/-- One pattern pass of `cleanup_intermediate_files`: snapshot the
matches, then attempt to unlink each one, collecting failures without
stopping. -/
def cleanupPattern (env : NeqnEnv) (fs : FS) (failed : List String)
    (pat : String) : FS × List String :=
  (fs.glob pat).foldl
    (fun acc name =>
      if env.unlinkOk name then (acc.1.erase name, acc.2)
      else (acc.1, acc.2 ++ [name]))
    (fs, failed)

/-- `NeqnBuilder.cleanup_intermediate_files`: skipped when both
cleanup toggles are off; otherwise process each intermediate pattern
in order, return `True` iff no deletion failed. -/
def cleanup_intermediate_files (cfg : NeqnCfg) (fs : FS) (env : NeqnEnv) :
    Bool × FS :=
  if !(cfg.cleanup_objects || cfg.cleanup_generated) then (true, fs)
  else
    let st := intermediate_files.foldl
      (fun st pat => cleanupPattern env st.1 st.2 pat) (fs, [])
    (st.2.isEmpty, st.1)

/-- `NeqnBuilder.rename_executable`: pick the first existing of
`a.out`, `ne`; unlink any existing `neqn`; rename the temporary to
`neqn`.  An `OSError` from either operation returns `False`. -/
def rename_executable (fs : FS) (env : NeqnEnv) : Bool × FS :=
  match (if fs.fileExists "a.out" then some "a.out"
    else if fs.fileExists "ne" then some "ne"
    else none) with
  | none => (false, fs)
  | some t =>
    if fs.fileExists "neqn" && !(env.unlinkOk "neqn") then (false, fs)
    else if !(env.renameOk "neqn") then
      (false, if fs.fileExists "neqn" then fs.erase "neqn" else fs)
    else
      (true, (if fs.fileExists "neqn" then fs.erase "neqn" else fs).rename
        t "neqn")

/-- `NeqnBuilder.validate_build`: the executable must exist and carry
the executable bit; the trailing trial run with empty input is
tolerated whatever its outcome. -/
def validate_build (fs : FS) (env : NeqnEnv) : Bool × List Event :=
  match fs.lookup "neqn" with
  | none => (false, [])
  | some i =>
    if !i.executable then (false, [])
    else
      (true,
        match env.neqnProbe with
        | .notFound => []
        | _ => [.probe "neqn"])

/-- `NeqnBuilder.backup_existing_executable`: identical in shape to
the nroff variant, over `neqn`/`neqn.backup`. -/
def backup_existing_executable (cfg : NeqnCfg) (fs : FS) (env : NeqnEnv) :
    Bool × FS :=
  if !cfg.backup_existing then (true, fs)
  else
    match fs.lookup "neqn" with
    | none => (true, fs)
    | some _ =>
      if fs.fileExists "neqn.backup" && !(env.unlinkOk "neqn.backup") then
        (false, fs)
      else if !(env.renameOk "neqn.backup") then
        (false, if fs.fileExists "neqn.backup" then fs.erase "neqn.backup"
          else fs)
      else
        (true,
          (if fs.fileExists "neqn.backup" then fs.erase "neqn.backup"
            else fs).rename "neqn" "neqn.backup")

/-- The stage at which `NeqnBuilder.build` returned `False`. -/
inductive Stage where
  | backupStage
  | depsStage
  | genStage
  | compileStage
  | renameStage
  | validateStage
deriving DecidableEq, Repr

/-- Outcome of one `NeqnBuilder.build` run; `renameWarn` records the
"Using default executable name" fallback and `cleanupWarn` the
"cleanup had issues" downgrade, both of which let the run continue. -/
structure RunOut where
  ok : Bool
  firstFail : Option Stage
  renameWarn : Bool
  cleanupWarn : Bool
  fs : FS
  log : List Event
deriving Repr

/-- Tail of `NeqnBuilder.build` after the rename step: cleanup (a
failure is downgraded to a warning) then validate. -/
def buildTail (cfg : NeqnCfg) (env : NeqnEnv) (renameWarn : Bool)
    (fs : FS) (logAcc : List Event) : RunOut :=
  if !(validate_build (cleanup_intermediate_files cfg fs env).2 env).1 then
    ⟨false, some .validateStage, renameWarn,
      !(cleanup_intermediate_files cfg fs env).1,
      (cleanup_intermediate_files cfg fs env).2,
      logAcc ++
        (validate_build (cleanup_intermediate_files cfg fs env).2 env).2⟩
  else
    ⟨true, none, renameWarn,
      !(cleanup_intermediate_files cfg fs env).1,
      (cleanup_intermediate_files cfg fs env).2,
      logAcc ++
        (validate_build (cleanup_intermediate_files cfg fs env).2 env).2⟩

/-- Rename step of `NeqnBuilder.build`, with the fallback that lets
the run continue under a warning when the rename failed but `a.out`
exists. -/
def buildRename (cfg : NeqnCfg) (env : NeqnEnv) (fs : FS)
    (logAcc : List Event) : RunOut :=
  if !(rename_executable fs env).1 then
    (if (rename_executable fs env).2.fileExists "a.out" then
      buildTail cfg env true (rename_executable fs env).2 logAcc
    else
      ⟨false, some .renameStage, false, false, (rename_executable fs env).2,
        logAcc⟩)
  else buildTail cfg env false (rename_executable fs env).2 logAcc

/-- Compile step of `NeqnBuilder.build`. -/
def buildCompile (cfg : NeqnCfg) (env : NeqnEnv) (fs : FS)
    (logAcc : List Event) : RunOut :=
  if !(compile_sources fs env).1 then
    ⟨false, some .compileStage, false, false, (compile_sources fs env).2.1,
      logAcc ++ (compile_sources fs env).2.2⟩
  else buildRename cfg env (compile_sources fs env).2.1
    (logAcc ++ (compile_sources fs env).2.2)

/-- Parser-generation step of `NeqnBuilder.build`. -/
def buildGen (cfg : NeqnCfg) (env : NeqnEnv) (fs : FS)
    (logAcc : List Event) : RunOut :=
  if !(generateParser fs env).1 then
    ⟨false, some .genStage, false, false, (generateParser fs env).2.1,
      logAcc ++ (generateParser fs env).2.2⟩
  else buildCompile cfg env (generateParser fs env).2.1
    (logAcc ++ (generateParser fs env).2.2)

/-- `NeqnBuilder.build`: backup, check dependencies, generate the
parser, compile, rename (with fallback warning), clean intermediates
(warning only), and validate — stopping at the first fatal stage.
The staged helper definitions above are the successive
`if not ...: return False` blocks of the method body. -/
def build (cfg : NeqnCfg) (fs : FS) (env : NeqnEnv) : RunOut :=
  if !(backup_existing_executable cfg fs env).1 then
    ⟨false, some .backupStage, false, false,
      (backup_existing_executable cfg fs env).2, []⟩
  else if !(check_dependencies
      (backup_existing_executable cfg fs env).2 env).1 then
    ⟨false, some .depsStage, false, false,
      (backup_existing_executable cfg fs env).2,
      (check_dependencies (backup_existing_executable cfg fs env).2 env).2⟩
  else buildGen cfg env (backup_existing_executable cfg fs env).2
    (check_dependencies (backup_existing_executable cfg fs env).2 env).2

end NeqnBuilder

/-!
Concrete fixtures used by counterexamples and witnesses
-/

/-- A plain, readable, non-executable regular file. -/
def plainFile (sz d : Nat) : FileInfo := ⟨sz, false, true, true, d⟩

/-- An executable, readable regular file. -/
def execFile (sz d : Nat) : FileInfo := ⟨sz, true, true, true, d⟩

/-- Assembly working directory with both sources present and non-empty. -/
def fsA : FS := [("t.s", plainFile 10 1), ("hytab.s", plainFile 10 2)]

/-- Well-behaved assembler environment: probes succeed, assembling any
source writes a non-empty `a.out`, no OS errors. -/
def envA : TroffEnv :=
  { asProbe := .completed 0 "" ""
    asHelpProbe := .completed 0 "" ""
    asRun := fun _ => .completed 0 "" ""
    asEffect := fun s => [("a.out", plainFile 5 (if s = "t.s" then 11 else 12))]
    unlinkOk := fun _ => true
    renameOk := fun _ => true }

/-- `envA` with an assembler that exits 1 with captured output. -/
def envAfail : TroffEnv :=
  { envA with asRun := fun _ => .completed 1 "as out" "as err" }

/-- Nroff working directory: all thirteen sources and both object
files present and non-empty. -/
def fsN : FS :=
  [("n1.c", plainFile 40 21), ("n2.c", plainFile 40 22),
   ("n3.c", plainFile 40 23), ("n4.c", plainFile 40 24),
   ("n5.c", plainFile 40 25), ("n6.c", plainFile 40 26),
   ("n7.c", plainFile 40 27), ("n8.c", plainFile 40 28),
   ("n9.c", plainFile 40 29), ("n10.c", plainFile 40 30),
   ("ni.c", plainFile 40 31), ("nii.c", plainFile 40 32),
   ("ntab.c", plainFile 40 33),
   ("t.o", plainFile 60 41), ("hytab.o", plainFile 60 42)]

/-- Default nroff configuration (backup, strip and validation on). -/
def cfgN : NrcCfg := ⟨true, true, true⟩

/-- Well-behaved nroff environment: `cc` writes an executable `a.out`,
`strip` rewrites it, no OS errors. -/
def envN : NrcEnv :=
  { ccResult := .completed 0 "" ""
    ccEffect := [("a.out", execFile 500 90)]
    stripResult := .completed 0 "" ""
    stripEffect := [("a.out", execFile 400 91)]
    validateProbe := .completed 0 "" ""
    unlinkOk := fun _ => true
    renameOk := fun _ => true }

/-- `envN` with a linker that exits 1 with captured stderr. -/
def envNccFail : NrcEnv :=
  { envN with ccResult := .completed 1 "" "link error" }

/-- Neqn working directory: grammar and two sources, present and
non-empty. -/
def fsQ : FS :=
  [("ne.g", plainFile 30 51), ("ne1.c", plainFile 40 52),
   ("ne2.c", plainFile 40 53)]

/-- Default neqn configuration (backup, both cleanups and validation on). -/
def cfgQ : NeqnCfg := ⟨true, true, true, true, true⟩

/-- Well-behaved neqn environment: probes succeed, `yacc` writes both
generated files, `cc` writes an executable `a.out` and a leftover
object file, no OS errors. -/
def envQ : NeqnEnv :=
  { yaccProbe := .completed 0 "" ""
    yaccWhich := .completed 0 "" ""
    ccProbe := .completed 0 "" ""
    ccWhich := .completed 0 "" ""
    yaccResult := .completed 0 "" ""
    yaccEffect := [("y.tab.c", plainFile 200 61), ("y.tab.h", plainFile 50 62)]
    ccResult := .completed 0 "" ""
    ccEffect := [("a.out", execFile 600 63), ("ne1.o", plainFile 20 64)]
    neqnProbe := .completed 0 "" ""
    unlinkOk := fun _ => true
    renameOk := fun _ => true }

/-- `envQ` with a parser generator that exits 1. -/
def envQyaccFail : NeqnEnv :=
  { envQ with yaccResult := .completed 1 "" "syntax error" }

/-- `envQ` with a parser generator that exits 0 but writes nothing,
and a compiler that then fails for lack of the generated input. -/
def envQnoGen : NeqnEnv :=
  { envQ with yaccEffect := [],
              ccResult := .completed 1 "" "y.tab.c: No such file" }

/-!
Claims
-/

section Claim10

/-- Helper: the only normal return of the output verification of
`assemble_file` is `True`. -/
theorem verify_output_ok_true (fs3 : FS) (out : String) (r : Bool) (fs' : FS)
    (h : TroffBuilder.verify_output fs3 out = (.ok r, fs')) : r = true := by
  unfold TroffBuilder.verify_output at h
  split at h
  · simp at h
  · split at h
    · simp at h
    · simp_all

/-- Helper: the only normal return of the placement tail of
`assemble_file` is `True`. -/
theorem place_output_ok_true (fs : FS) (env : TroffEnv) (src out : String)
    (r : Bool) (fs' : FS)
    (h : TroffBuilder.place_output fs env src out = (.ok r, fs')) : r = true := by
  unfold TroffBuilder.place_output at h
  repeat' split at h
  all_goals first
    | exact verify_output_ok_true _ _ _ _ h
    | simp_all

/-- Helper: `assemble_file` never returns `False`: its only `return`
statement returns `True`, every other exit raises. -/
theorem assemble_file_ok_true (fs : FS) (env : TroffEnv) (src out : String)
    (r : Bool) (fs' : FS) (log : List Event)
    (h : TroffBuilder.assemble_file fs env src out = (.ok r, fs', log)) :
    r = true := by
  unfold TroffBuilder.assemble_file at h
  split at h
  · simp at h
  · split at h
    · rw [Prod.ext_iff] at h
      exact place_output_ok_true _ env src out r _ (Prod.ext_iff.mpr ⟨h.1, rfl⟩)
    · simp at h
    · simp at h
    · simp at h

/-- C10: every call of the assembly target's `assemble_file` either
raises (`AssemblyBuildError`, or the uncaught `FileNotFoundError`) or
returns `True` — never `False`; consequently `build_all`'s
partial-failure return path is unreachable and a normal return of
`build_all` is exactly `(True, ["t.o", "hytab.o"])`. -/
theorem claim10_assemble_file_never_false :
    (∀ fs env src out r fs' log,
      TroffBuilder.assemble_file fs env src out = (.ok r, fs', log) →
        r = true) ∧
    (∀ fs env res fs' log,
      TroffBuilder.build_all fs env = (.ok res, fs', log) →
        res = (true, ["t.o", "hytab.o"])) := by
  refine ⟨fun fs env src out r fs' log h =>
    assemble_file_ok_true fs env src out r fs' log h, ?_⟩
  intro fs env res fs' log h
  unfold TroffBuilder.build_all at h
  split at h
  · simp at h
  · unfold TroffBuilder.assemble_targets at h
    split at h
    · simp at h
    · simp at h
    · rename_i b1 fs2 log1 heq1
      have hb1 : b1 = true := assemble_file_ok_true _ _ _ _ _ _ _ heq1
      subst hb1
      rw [if_pos rfl] at h
      split at h
      · simp at h
      · simp at h
      · rename_i b2 fs3 log2 heq2
        have hb2 : b2 = true := assemble_file_ok_true _ _ _ _ _ _ _ heq2
        subst hb2
        rw [if_pos rfl] at h
        simp at h
        exact h.1.symm

/-- Witness for C10: a concrete run in which both assemblies succeed,
instantiating the `build_all` conjunct. -/
theorem claim10_witness :
    TroffBuilder.build_all fsA envA =
      (Except.ok (true, ["t.o", "hytab.o"]),
        [("hytab.o", plainFile 5 12), ("t.o", plainFile 5 11),
         ("t.s", plainFile 10 1), ("hytab.s", plainFile 10 2)],
        [Event.probe "as", Event.run "as", Event.run "as"]) ∧
    ((true, ["t.o", "hytab.o"]) : Bool × List String) =
      (true, ["t.o", "hytab.o"]) := by
  have h : TroffBuilder.build_all fsA envA =
      (Except.ok (true, ["t.o", "hytab.o"]),
        [("hytab.o", plainFile 5 12), ("t.o", plainFile 5 11),
         ("t.s", plainFile 10 1), ("hytab.s", plainFile 10 2)],
        [Event.probe "as", Event.run "as", Event.run "as"]) := by rfl
  exact ⟨h, claim10_assemble_file_never_false.2 fsA envA _ _ _ h⟩

end Claim10

section Claim4

/-- C4: every build-relevant invocation fails the pipeline on non-zero
exit with the tool's captured output preserved in the failure, and the
validation-stage tool probes are the sole exception, tolerating
non-zero exit:
(1) `NroffBuilder.run_command` on a non-zero exit returns `False`
with the captured stderr embedded in the failure message;
(2) `TroffBuilder.assemble_file` on a non-zero assembler exit raises
`assemblyFailed` carrying the exit code and the full captured
stdout/stderr;
(3) the assembler availability probe tolerates non-zero exits from
both `--version` and `--help`;
(4) `NeqnBuilder._check_tool_availability` reports a tool available
on any completed probe, whatever its exit code;
(5) at pipeline level, a non-zero `cc` exit fails the nroff run at
the compile stage. -/
theorem claim4_exit_code_policy :
    (∀ rc sout serr tool desc, serr ≠ "" →
      NroffBuilder.run_command (.completed (rc + 1) sout serr) tool desc =
        ((false, desc ++ " failed with exit code " ++ toString (rc + 1) ++
          "\nError output: " ++ serr), [Event.run tool])) ∧
    (∀ fs env src out rc sout serr,
      TroffBuilder.validate_source_file fs src = .ok () →
      env.asRun src = .completed (rc + 1) sout serr →
      TroffBuilder.assemble_file fs env src out =
        (.error (.ab (.assemblyFailed src (rc + 1) sout serr)),
          TroffBuilder.clean_temp_files fs env, [Event.run "as"])) ∧
    (∀ env rc s1 s2 rc' s3 s4,
      env.asProbe = ProcResult.completed rc s1 s2 →
      env.asHelpProbe = ProcResult.completed rc' s3 s4 →
      (TroffBuilder.validate_assembler env).1 = .ok ()) ∧
    (∀ tool rc s1 s2 whichR,
      NeqnBuilder.check_tool_availability tool (.completed rc s1 s2) whichR =
        (true, [Event.probe tool])) ∧
    (∀ cfg fs env rc sout serr,
      (NroffBuilder.backup_existing_executable cfg fs env).1 = true →
      NroffBuilder.check_dependencies
        (NroffBuilder.backup_existing_executable cfg fs env).2 = true →
      env.ccResult = .completed (rc + 1) sout serr →
      (NroffBuilder.build cfg fs env).ok = false ∧
      (NroffBuilder.build cfg fs env).firstFail = some .compileStage) := by
  refine ⟨?_, ?_, ?_, ?_, ?_⟩
  · intro rc sout serr tool desc hserr
    simp [NroffBuilder.run_command, hserr]
  · intro fs env src out rc sout serr hval hrun
    unfold TroffBuilder.assemble_file
    rw [hval, hrun]
    simp
  · intro env rc s1 s2 rc' s3 s4 hp hh
    unfold TroffBuilder.validate_assembler
    rw [hp, hh]
    cases rc with
    | zero => rfl
    | succ rc => rfl
  · intro tool rc s1 s2 whichR
    rfl
  · intro cfg fs env rc sout serr h1 h2 hcc
    have hfail : (NroffBuilder.compile_and_link
        (NroffBuilder.backup_existing_executable cfg fs env).2 env).1 = false := by
      simp [NroffBuilder.compile_and_link, NroffBuilder.run_command, hcc]
    constructor <;>
      simp [NroffBuilder.build, NroffBuilder.buildCompile, h1, h2, hfail]

/-- Witness for C4: concrete instances discharging every hypothesis of
the five conjuncts. -/
theorem claim4_witness :
    (NroffBuilder.run_command (.completed (1 + 1) "o" "e") "cc" "d" =
      ((false, "d" ++ " failed with exit code " ++ toString (1 + 1) ++
        "\nError output: " ++ "e"), [Event.run "cc"])) ∧
    (TroffBuilder.assemble_file fsA envAfail "t.s" "t.o" =
      (.error (.ab (.assemblyFailed "t.s" (0 + 1) "as out" "as err")),
        TroffBuilder.clean_temp_files fsA envAfail, [Event.run "as"])) ∧
    ((TroffBuilder.validate_assembler
        { envA with asProbe := .completed 3 "" "",
                    asHelpProbe := .completed 4 "" "" }).1 = .ok ()) ∧
    (NeqnBuilder.check_tool_availability "yacc" (.completed 7 "" "") .notFound =
      (true, [Event.probe "yacc"])) ∧
    ((NroffBuilder.build cfgN fsN envNccFail).ok = false ∧
      (NroffBuilder.build cfgN fsN envNccFail).firstFail =
        some .compileStage) := by
  refine ⟨?_, ?_, ?_, ?_, ?_⟩
  · exact claim4_exit_code_policy.1 1 "o" "e" "cc" "d" (by decide)
  · exact claim4_exit_code_policy.2.1 fsA envAfail "t.s" "t.o" 0 "as out" "as err"
      (by rfl) (by rfl)
  · exact claim4_exit_code_policy.2.2.1 _ 3 "" "" 4 "" "" rfl rfl
  · exact claim4_exit_code_policy.2.2.2.1 "yacc" 7 "" "" .notFound
  · exact claim4_exit_code_policy.2.2.2.2 cfgN fsN envNccFail 0 "" "link error"
      (by rfl) (by rfl) (by rfl)

end Claim4

section LogLemmas

theorem runEvents_append (a b : List Event) :
    runEvents (a ++ b) = runEvents a ++ runEvents b := by
  simp [runEvents]

/-- Availability probes contribute no build-tool invocation. -/
theorem runEvents_check_tool (tool : String) (p w : ProcResult) :
    runEvents (NeqnBuilder.check_tool_availability tool p w).2 = [] := by
  cases p <;> cases w <;>
    simp [NeqnBuilder.check_tool_availability, NeqnBuilder.whichEvents,
      runEvents]

/-- The dependency check performs probes only. -/
theorem runEvents_deps (fs : FS) (env : NeqnEnv) :
    runEvents (NeqnBuilder.check_dependencies fs env).2 = [] := by
  unfold NeqnBuilder.check_dependencies
  simp [runEvents_append, runEvents_check_tool]

end LogLemmas

section Claim7

/-- C7: in the grammar target, if the first chained tool invocation
(the parser generator) fails — non-zero exit or command not found —
the run fails and the second tool (the compiler) is never invoked. -/
theorem claim7_yacc_failure_short_circuits :
    ∀ cfg fs env,
      ((∃ rc sout serr, env.yaccResult = Proc2.completed (rc + 1) sout serr) ∨
        env.yaccResult = Proc2.notFound) →
      (NeqnBuilder.build cfg fs env).ok = false ∧
      "cc" ∉ runEvents (NeqnBuilder.build cfg fs env).log := by
  intro cfg fs env hfail
  have hgen1 : ∀ fs0, (NeqnBuilder.generateParser fs0 env).1 = false := by
    intro fs0
    rcases hfail with ⟨rc, sout, serr, h⟩ | h <;>
      simp [NeqnBuilder.generateParser, NeqnBuilder.run_command, h]
  have hgen2 : ∀ fs0,
      runEvents (NeqnBuilder.generateParser fs0 env).2.2 = [] ∨
      runEvents (NeqnBuilder.generateParser fs0 env).2.2 = ["yacc"] := by
    intro fs0
    rcases hfail with ⟨rc, sout, serr, h⟩ | h <;>
      simp [NeqnBuilder.generateParser, NeqnBuilder.run_command, h, runEvents]
  by_cases hb : (NeqnBuilder.backup_existing_executable cfg fs env).1
  · by_cases hd : (NeqnBuilder.check_dependencies
        (NeqnBuilder.backup_existing_executable cfg fs env).2 env).1
    · have hone := hgen1 (NeqnBuilder.backup_existing_executable cfg fs env).2
      refine ⟨by simp [NeqnBuilder.build, NeqnBuilder.buildGen, hb, hd, hone],
        ?_⟩
      have hlog : (NeqnBuilder.build cfg fs env).log =
          (NeqnBuilder.check_dependencies
            (NeqnBuilder.backup_existing_executable cfg fs env).2 env).2 ++
          (NeqnBuilder.generateParser
            (NeqnBuilder.backup_existing_executable cfg fs env).2 env).2.2 := by
        simp [NeqnBuilder.build, NeqnBuilder.buildGen, hb, hd, hone]
      rw [hlog, runEvents_append, runEvents_deps]
      rcases hgen2 (NeqnBuilder.backup_existing_executable cfg fs env).2 with
        h | h <;> simp [h]
    · refine ⟨by simp [NeqnBuilder.build, hb, hd], ?_⟩
      have hlog : (NeqnBuilder.build cfg fs env).log =
          (NeqnBuilder.check_dependencies
            (NeqnBuilder.backup_existing_executable cfg fs env).2 env).2 := by
        simp [NeqnBuilder.build, hb, hd]
      rw [hlog, runEvents_deps]
      simp
  · simp only [Bool.not_eq_true] at hb
    refine ⟨by simp [NeqnBuilder.build, hb], ?_⟩
    have hlog : (NeqnBuilder.build cfg fs env).log = [] := by
      simp [NeqnBuilder.build, hb]
    rw [hlog]
    simp [runEvents]

/-- Witness for C7: a concrete run whose parser generator exits 1. -/
theorem claim7_witness :
    ((∃ rc sout serr,
        envQyaccFail.yaccResult = Proc2.completed (rc + 1) sout serr) ∨
      envQyaccFail.yaccResult = Proc2.notFound) ∧
    ((NeqnBuilder.build cfgQ fsQ envQyaccFail).ok = false ∧
      "cc" ∉ runEvents (NeqnBuilder.build cfgQ fsQ envQyaccFail).log) :=
  ⟨Or.inl ⟨0, "", "syntax error", rfl⟩,
    claim7_yacc_failure_short_circuits cfgQ fsQ envQyaccFail
      (Or.inl ⟨0, "", "syntax error", rfl⟩)⟩

end Claim7

section Claim8

/-- C8: when the parser generator exits 0 but produces none of its
declared generated files, the parser-generation stage itself still
returns success (missing generated files are only warnings), and a
run that then fails because the compiler cannot find its generated
input is tagged at the compile stage, not at the generation stage. -/
theorem claim8_generation_tolerates_missing_outputs :
    (∀ fs env sout serr,
      env.yaccResult = Proc2.completed 0 sout serr →
      (NeqnBuilder.generateParser fs env).1 = true) ∧
    (∀ cfg fs env sout serr rc sout2 serr2,
      (NeqnBuilder.backup_existing_executable cfg fs env).1 = true →
      (NeqnBuilder.check_dependencies
        (NeqnBuilder.backup_existing_executable cfg fs env).2 env).1 = true →
      env.yaccResult = Proc2.completed 0 sout serr →
      env.yaccEffect = [] →
      env.ccResult = Proc2.completed (rc + 1) sout2 serr2 →
      (NeqnBuilder.build cfg fs env).ok = false ∧
      (NeqnBuilder.build cfg fs env).firstFail = some .compileStage) := by
  constructor
  · intro fs env sout serr hy
    simp [NeqnBuilder.generateParser, NeqnBuilder.run_command, hy]
  · intro cfg fs env sout serr rc sout2 serr2 hb hd hy heff hcc
    have hgen : (NeqnBuilder.generateParser
        (NeqnBuilder.backup_existing_executable cfg fs env).2 env).1 = true := by
      simp [NeqnBuilder.generateParser, NeqnBuilder.run_command, hy]
    have hcomp : (NeqnBuilder.compile_sources
        (NeqnBuilder.generateParser
          (NeqnBuilder.backup_existing_executable cfg fs env).2 env).2.1
        env).1 = false := by
      unfold NeqnBuilder.compile_sources
      split
      · rfl
      · simp [NeqnBuilder.run_command, hcc]
    constructor <;>
      simp [NeqnBuilder.build, NeqnBuilder.buildGen, NeqnBuilder.buildCompile,
        hb, hd, hgen, hcomp]

/-- Witness for C8: a concrete run where `yacc` exits 0 writing
nothing and `cc` then exits 1. -/
theorem claim8_witness :
    ((NeqnBuilder.generateParser fsQ envQnoGen).1 = true) ∧
    ((NeqnBuilder.build cfgQ fsQ envQnoGen).ok = false ∧
      (NeqnBuilder.build cfgQ fsQ envQnoGen).firstFail =
        some .compileStage) :=
  ⟨claim8_generation_tolerates_missing_outputs.1 fsQ envQnoGen
      "" "" rfl,
    claim8_generation_tolerates_missing_outputs.2 cfgQ fsQ envQnoGen
      "" "" 0 "" "y.tab.c: No such file"
      (by rfl) (by rfl) rfl rfl rfl⟩

end Claim8

section CleanupLemmas

/-- A file is looked up successfully iff its name occurs in the
directory listing. -/
theorem FS.lookup_isSome_iff (fs : FS) (n : String) :
    (fs.lookup n).isSome ↔ n ∈ fs.map Prod.fst := by
  induction fs with
  | nil => simp [FS.lookup]
  | cons e fs ih =>
    simp only [FS.lookup, List.map_cons, List.mem_cons]
    by_cases h : e.1 = n
    · simp [h]
    · have h2 : ¬ n = e.1 := fun hh => h hh.symm
      simp only [if_neg h, ih]
      constructor
      · exact Or.inr
      · rintro (hh | hh)
        · exact absurd hh h2
        · exact hh

/-- Glob expansion of a cons cell. -/
theorem FS.glob_cons (e : String × FileInfo) (fs : FS) (pat : String) :
    FS.glob (e :: fs) pat =
      if globMatch pat e.1 then e.1 :: FS.glob fs pat else FS.glob fs pat := by
  by_cases hm : globMatch pat e.1 <;> simp [FS.glob, List.filter_cons, hm]

/-- Membership in a glob expansion. -/
theorem FS.mem_glob_iff (fs : FS) (pat n : String) :
    n ∈ fs.glob pat ↔ globMatch pat n = true ∧ (fs.lookup n).isSome := by
  induction fs with
  | nil => simp [FS.glob, FS.lookup]
  | cons e fs ih =>
    rw [FS.glob_cons]
    by_cases h : e.1 = n
    · subst h
      by_cases hm : globMatch pat e.1 <;>
        simp [hm, FS.lookup, ih]
    · have h2 : ¬ n = e.1 := fun hh => h hh.symm
      by_cases hm : globMatch pat e.1 <;>
        simp [hm, FS.lookup, h, h2, ih, List.mem_cons]

/-- Matching nothing: a pattern with no matching entry expands to the
empty list. -/
theorem FS.glob_eq_nil (fs : FS) (pat : String)
    (h : ∀ m ∈ fs.map Prod.fst, globMatch pat m = false) :
    fs.glob pat = [] := by
  cases hg : fs.glob pat with
  | nil => rfl
  | cons m rest =>
    have hm : m ∈ fs.glob pat := by rw [hg]; simp
    rw [FS.mem_glob_iff] at hm
    have := h m ((FS.lookup_isSome_iff fs m).mp hm.2)
    rw [hm.1] at this
    cases this

/-- The deletion loop of `cleanup_intermediate_files` over an already
expanded match list: a name is gone afterwards iff it was in the list
and its own unlink succeeded — independent of any other failure. -/
theorem eraseFold_lookup (env : NeqnEnv) (names : List String) :
    ∀ (fs : FS) (fail : List String) (n : String),
    ((names.foldl (fun acc name =>
        if env.unlinkOk name then (acc.1.erase name, acc.2)
        else (acc.1, acc.2 ++ [name])) (fs, fail)).1).lookup n =
      if n ∈ names ∧ env.unlinkOk n = true then none else fs.lookup n := by
  induction names with
  | nil => intro fs fail n; simp
  | cons name rest ih =>
    intro fs fail n
    simp only [List.foldl_cons]
    by_cases hu : env.unlinkOk name
    · rw [if_pos hu, ih]
      by_cases hn : n = name
      · subst hn
        by_cases hmem : n ∈ rest <;>
          simp [hmem, hu, FS.lookup_erase_self]
      · simp [List.mem_cons, hn, FS.lookup_erase_ne fs name n hn]
    · rw [if_neg hu, ih]
      by_cases hn : n = name
      · subst hn
        simp [List.mem_cons, hu]
      · simp [List.mem_cons, hn]

/-- The deletion loop collects exactly the matches whose unlink
failed, in order, appended to any previously collected failures: it
never stops at the first failure. -/
theorem eraseFold_failed (env : NeqnEnv) (names : List String) :
    ∀ (fs : FS) (fail : List String),
    ((names.foldl (fun acc name =>
        if env.unlinkOk name then (acc.1.erase name, acc.2)
        else (acc.1, acc.2 ++ [name])) (fs, fail)).2) =
      fail ++ names.filter (fun m => !env.unlinkOk m) := by
  induction names with
  | nil => intro fs fail; simp
  | cons name rest ih =>
    intro fs fail
    simp only [List.foldl_cons]
    by_cases hu : env.unlinkOk name
    · rw [if_pos hu, ih]
      simp [List.filter_cons, hu]
    · rw [if_neg hu, ih]
      simp [List.filter_cons, hu]

/-- One pattern pass of the cleanup, lookup side. -/
theorem cleanupPattern_lookup (env : NeqnEnv) (fs : FS) (fail : List String)
    (pat n : String) :
    ((NeqnBuilder.cleanupPattern env fs fail pat).1).lookup n =
      if n ∈ fs.glob pat ∧ env.unlinkOk n = true then none
      else fs.lookup n := by
  unfold NeqnBuilder.cleanupPattern
  exact eraseFold_lookup env (fs.glob pat) fs fail n

/-- One pattern pass of the cleanup, failure side. -/
theorem cleanupPattern_failed (env : NeqnEnv) (fs : FS) (fail : List String)
    (pat : String) :
    (NeqnBuilder.cleanupPattern env fs fail pat).2 =
      fail ++ (fs.glob pat).filter (fun m => !env.unlinkOk m) := by
  unfold NeqnBuilder.cleanupPattern
  exact eraseFold_failed env (fs.glob pat) fs fail

/-- Full cleanup characterization, lookup side: with cleanup enabled,
a file is removed iff it matches one of the two intermediate patterns
and its own unlink succeeds; everything else is untouched. -/
theorem cleanup_lookup (cfg : NeqnCfg) (fs : FS) (env : NeqnEnv) (n : String)
    (hen : (cfg.cleanup_objects || cfg.cleanup_generated) = true) :
    ((NeqnBuilder.cleanup_intermediate_files cfg fs env).2).lookup n =
      if (globMatch "*.o" n || globMatch "y.tab.c" n) && env.unlinkOk n
      then none else fs.lookup n := by
  unfold NeqnBuilder.cleanup_intermediate_files
  rw [if_neg (by simp [hen])]
  show ((NeqnBuilder.cleanupPattern env
      (NeqnBuilder.cleanupPattern env fs [] "*.o").1
      (NeqnBuilder.cleanupPattern env fs [] "*.o").2 "y.tab.c").1).lookup n = _
  by_cases hm1 : globMatch "*.o" n <;>
  by_cases hm2 : globMatch "y.tab.c" n <;>
  by_cases hu : env.unlinkOk n <;>
  cases he : fs.lookup n <;>
    simp [FS.mem_glob_iff, cleanupPattern_lookup, hm1, hm2, hu, he]

end CleanupLemmas

section Claim9

/-- C9: the cleanup pass is best-effort and exhaustive:
(1) with cleanup enabled, a file is removed iff it matches one of the
declared intermediate patterns and its own unlink succeeds,
independent of failures on other files (no fail-fast stop);
(2) a pattern pass collects exactly the matches whose unlink failed,
appended in order after earlier failures — it never stops early;
(3) when no file matches any pattern the cleanup succeeds and leaves
the directory untouched (matching nothing is not an error);
(4) in `build`, the cleanup verdict never decides the run: the
outcome equals the validation verdict and a cleanup failure is only
recorded as the `cleanupWarn` flag. -/
theorem claim9_cleanup_best_effort :
    (∀ cfg fs env n,
      (cfg.cleanup_objects || cfg.cleanup_generated) = true →
      ((NeqnBuilder.cleanup_intermediate_files cfg fs env).2).lookup n =
        if (globMatch "*.o" n || globMatch "y.tab.c" n) && env.unlinkOk n
        then none else fs.lookup n) ∧
    (∀ env fs fail pat,
      (NeqnBuilder.cleanupPattern env fs fail pat).2 =
        fail ++ (fs.glob pat).filter (fun m => !env.unlinkOk m)) ∧
    (∀ cfg fs env,
      (∀ m ∈ fs.map Prod.fst,
        globMatch "*.o" m = false ∧ globMatch "y.tab.c" m = false) →
      NeqnBuilder.cleanup_intermediate_files cfg fs env = (true, fs)) ∧
    (∀ cfg env rwn fs logAcc,
      (NeqnBuilder.buildTail cfg env rwn fs logAcc).ok =
        (NeqnBuilder.validate_build
          (NeqnBuilder.cleanup_intermediate_files cfg fs env).2 env).1 ∧
      (NeqnBuilder.buildTail cfg env rwn fs logAcc).cleanupWarn =
        !(NeqnBuilder.cleanup_intermediate_files cfg fs env).1) := by
  refine ⟨cleanup_lookup, cleanupPattern_failed, ?_, ?_⟩
  · intro cfg fs env h
    unfold NeqnBuilder.cleanup_intermediate_files
    split
    · rfl
    · have h1 : fs.glob "*.o" = [] :=
        FS.glob_eq_nil fs _ (fun m hm => (h m hm).1)
      have h2 : fs.glob "y.tab.c" = [] :=
        FS.glob_eq_nil fs _ (fun m hm => (h m hm).2)
      have hc1 : NeqnBuilder.cleanupPattern env fs [] "*.o" = (fs, []) := by
        unfold NeqnBuilder.cleanupPattern
        rw [h1]
        rfl
      have hc2 : NeqnBuilder.cleanupPattern env fs [] "y.tab.c" = (fs, []) := by
        unfold NeqnBuilder.cleanupPattern
        rw [h2]
        rfl
      show ((NeqnBuilder.cleanupPattern env
          (NeqnBuilder.cleanupPattern env fs [] "*.o").1
          (NeqnBuilder.cleanupPattern env fs [] "*.o").2 "y.tab.c").2.isEmpty,
        (NeqnBuilder.cleanupPattern env
          (NeqnBuilder.cleanupPattern env fs [] "*.o").1
          (NeqnBuilder.cleanupPattern env fs [] "*.o").2 "y.tab.c").1) =
        (true, fs)
      rw [hc1]
      show ((NeqnBuilder.cleanupPattern env fs [] "y.tab.c").2.isEmpty,
        (NeqnBuilder.cleanupPattern env fs [] "y.tab.c").1) = (true, fs)
      rw [hc2]
      rfl
  · intro cfg env rwn fs logAcc
    unfold NeqnBuilder.buildTail
    by_cases hv : (NeqnBuilder.validate_build
        (NeqnBuilder.cleanup_intermediate_files cfg fs env).2 env).1 <;>
      simp [hv]

/-- Witness for C9: concrete instances discharging the hypotheses of
the first and third conjuncts. -/
theorem claim9_witness :
    ((cfgQ.cleanup_objects || cfgQ.cleanup_generated) = true ∧
      ((NeqnBuilder.cleanup_intermediate_files cfgQ
          [("ne1.o", plainFile 20 64)] envQ).2).lookup "ne1.o" =
        (if (globMatch "*.o" "ne1.o" || globMatch "y.tab.c" "ne1.o") &&
            envQ.unlinkOk "ne1.o"
          then none else FS.lookup [("ne1.o", plainFile 20 64)] "ne1.o")) ∧
    ((∀ m ∈ List.map Prod.fst fsQ,
        globMatch "*.o" m = false ∧ globMatch "y.tab.c" m = false) ∧
      NeqnBuilder.cleanup_intermediate_files cfgQ fsQ envQ = (true, fsQ)) :=
  ⟨⟨rfl, claim9_cleanup_best_effort.1 cfgQ [("ne1.o", plainFile 20 64)] envQ
      "ne1.o" rfl⟩,
    ⟨by decide, claim9_cleanup_best_effort.2.2.1 cfgQ fsQ envQ (by decide)⟩⟩

end Claim9

section Claim6

/-- `fsN` with a previously built `nroff` executable present. -/
def fsN2 : FS := ("nroff", execFile 300 80) :: fsN

/-- `envN` except that renaming onto `nroff.backup` raises `OSError`. -/
def envNbackupFail : NrcEnv :=
  { envN with renameOk := fun n => n != "nroff.backup" }

/-- C6 counterexample: with backup enabled, a prior `nroff` present
and the backup rename failing, the run does NOT proceed to subsequent
stages: `build` returns `False` at the backup stage with no tool
invoked — while the identical state with a working rename builds
successfully.  This refutes the claim that a backup rename failure is
non-fatal to the build attempt. -/
theorem claim6_counterexample :
    (NroffBuilder.build cfgN fsN2 envNbackupFail).ok = false ∧
    (NroffBuilder.build cfgN fsN2 envNbackupFail).firstFail =
      some .backupStage ∧
    (NroffBuilder.build cfgN fsN2 envNbackupFail).log = [] ∧
    (NroffBuilder.build cfgN fsN2 envN).ok = true := by decide

/-- C6 amended: with backup enabled, the backup step is a no-op
returning success when no final artifact exists; but when the backup
fails (e.g. the rename raises), the failure is logged and the run
aborts at the backup stage — `build` returns `False` without reaching
any subsequent stage or invoking any tool. -/
theorem claim6_amended_backup_failure_fatal :
    (∀ cfg fs env, cfg.backup_existing = true →
      FS.lookup fs "nroff" = none →
      NroffBuilder.backup_existing_executable cfg fs env = (true, fs)) ∧
    (∀ cfg fs env,
      (NroffBuilder.backup_existing_executable cfg fs env).1 = false →
      (NroffBuilder.build cfg fs env).ok = false ∧
      (NroffBuilder.build cfg fs env).firstFail = some .backupStage ∧
      (NroffBuilder.build cfg fs env).log = []) := by
  constructor
  · intro cfg fs env hb hnone
    simp [NroffBuilder.backup_existing_executable, hb, hnone]
  · intro cfg fs env hfail
    refine ⟨?_, ?_, ?_⟩ <;> simp [NroffBuilder.build, hfail]

/-- Witness for the amended C6: both conjuncts at concrete runs. -/
theorem claim6_witness :
    (cfgN.backup_existing = true ∧ FS.lookup fsN "nroff" = none ∧
      NroffBuilder.backup_existing_executable cfgN fsN envN = (true, fsN)) ∧
    ((NroffBuilder.backup_existing_executable cfgN fsN2 envNbackupFail).1 =
        false ∧
      (NroffBuilder.build cfgN fsN2 envNbackupFail).ok = false ∧
      (NroffBuilder.build cfgN fsN2 envNbackupFail).firstFail =
        some .backupStage ∧
      (NroffBuilder.build cfgN fsN2 envNbackupFail).log = []) :=
  ⟨⟨rfl, by decide,
      claim6_amended_backup_failure_fatal.1 cfgN fsN envN rfl (by decide)⟩,
    ⟨by decide,
      claim6_amended_backup_failure_fatal.2 cfgN fsN2 envNbackupFail
        (by decide)⟩⟩

end Claim6

section Claim5

/-- `verify_output` never changes the directory. -/
theorem verify_output_fs (fs3 : FS) (out : String) :
    (TroffBuilder.verify_output fs3 out).2 = fs3 := by
  unfold TroffBuilder.verify_output
  split
  · rfl
  · split <;> rfl

/-- After a successful placement the temporary `a.out` is gone
(for an output name other than `a.out` itself). -/
theorem place_output_ok_no_temp (fs : FS) (env : TroffEnv) (src out : String)
    (hne : out ≠ "a.out") (r : Bool) (fs' : FS)
    (h : TroffBuilder.place_output fs env src out = (.ok r, fs')) :
    fs'.lookup "a.out" = none := by
  unfold TroffBuilder.place_output at h
  split at h
  · simp at h
  · split at h
    · simp at h
    · split at h
      · simp at h
      · rename_i hex _ _
        have hsome : (fs.lookup "a.out").isSome := by
          cases hb : FS.fileExists fs "a.out" with
          | false => rw [hb] at hex; simp at hex
          | true => simpa [FS.fileExists] using hb
        have hfs' : fs' = ((if fs.fileExists out then fs.erase out
            else fs).rename "a.out" out) := by
          have h2 := congrArg Prod.snd h
          rw [verify_output_fs] at h2
          exact h2.symm
        subst hfs'
        apply FS.lookup_rename_src
        · exact fun hh => hne hh.symm
        · split
          · rw [FS.lookup_erase_ne fs out "a.out" (fun hh => hne hh.symm)]
            exact hsome
          · exact hsome

/-- After a successful `assemble_file` the temporary `a.out` is gone. -/
theorem assemble_file_ok_no_temp (fs : FS) (env : TroffEnv) (src out : String)
    (hne : out ≠ "a.out") (r : Bool) (fs' : FS) (log : List Event)
    (h : TroffBuilder.assemble_file fs env src out = (.ok r, fs', log)) :
    fs'.lookup "a.out" = none := by
  unfold TroffBuilder.assemble_file at h
  split at h
  · simp at h
  · split at h
    · rw [Prod.ext_iff] at h
      have h2 : (TroffBuilder.place_output
          (applyEffect (TroffBuilder.clean_temp_files fs env) (env.asEffect src))
          env src out).2 = fs' := congrArg Prod.fst h.2
      exact place_output_ok_no_temp _ env src out hne r fs'
        (Prod.ext_iff.mpr ⟨h.1, h2⟩)
    · simp at h
    · simp at h
    · simp at h

/-- `rename_executable` leaves no `a.out` behind when it succeeds. -/
theorem rename_executable_no_temp (fs : FS) (env : NrcEnv)
    (h : (NroffBuilder.rename_executable fs env).1 = true) :
    ((NroffBuilder.rename_executable fs env).2).lookup "a.out" = none := by
  unfold NroffBuilder.rename_executable at h ⊢
  split at h
  · simp at h
  · rename_i hex
    have hsome : (fs.lookup "a.out").isSome := by
      cases hb : FS.fileExists fs "a.out" with
      | false => rw [hb] at hex; simp at hex
      | true => simpa [FS.fileExists] using hb
    rw [if_neg hex]
    split at h
    · simp at h
    · split at h
      · simp at h
      · rename_i hcond hren
        rw [if_neg hcond, if_neg hren]
        apply FS.lookup_rename_src
        · decide
        · split
          · rw [FS.lookup_erase_ne fs "nroff" "a.out" (by decide)]
            exact hsome
          · exact hsome

/-- Helper: from the negated-negation form produced by an if-split. -/
theorem bool_pos_of_not_not {b : Bool} (h : ¬ (!b) = true) : b = true := by
  cases b
  · simp at h
  · rfl

/-- Helper: the validation step does not change the directory. -/
theorem nrc_buildValidate_fs (env : NrcEnv) (fs : FS) (logAcc : List Event) :
    (NroffBuilder.buildValidate env fs logAcc).fs = fs := by
  unfold NroffBuilder.buildValidate
  split <;> rfl

/-- Helper: from the rename step on, a successful run has no `a.out`. -/
theorem nrc_buildRename_no_temp (env : NrcEnv) (fs : FS) (logAcc : List Event)
    (hok : (NroffBuilder.buildRename env fs logAcc).ok = true) :
    FS.lookup (NroffBuilder.buildRename env fs logAcc).fs "a.out" = none := by
  unfold NroffBuilder.buildRename at hok ⊢
  split at hok
  · simp at hok
  · rename_i h5
    rw [if_neg h5, nrc_buildValidate_fs]
    exact rename_executable_no_temp fs env (bool_pos_of_not_not h5)

/-- Helper: from the strip step on, a successful run has no `a.out`. -/
theorem nrc_buildStrip_no_temp (cfg : NrcCfg) (env : NrcEnv) (fs : FS)
    (logAcc : List Event)
    (hok : (NroffBuilder.buildStrip cfg env fs logAcc).ok = true) :
    FS.lookup (NroffBuilder.buildStrip cfg env fs logAcc).fs "a.out" =
      none := by
  unfold NroffBuilder.buildStrip at hok ⊢
  split at hok
  · simp at hok
  · rename_i h4
    rw [if_neg h4]
    exact nrc_buildRename_no_temp env _ _ hok

/-- Helper: from the compile step on, a successful run has no `a.out`. -/
theorem nrc_buildCompile_no_temp (cfg : NrcCfg) (env : NrcEnv) (fs : FS)
    (hok : (NroffBuilder.buildCompile cfg env fs).ok = true) :
    FS.lookup (NroffBuilder.buildCompile cfg env fs).fs "a.out" = none := by
  unfold NroffBuilder.buildCompile at hok ⊢
  split at hok
  · simp at hok
  · rename_i h3
    rw [if_neg h3]
    exact nrc_buildStrip_no_temp cfg env _ _ hok

/-- Helper: a successful nroff build leaves no `a.out`. -/
theorem nrc_success_no_temp (cfg : NrcCfg) (fs : FS) (env : NrcEnv)
    (hok : (NroffBuilder.build cfg fs env).ok = true) :
    FS.lookup (NroffBuilder.build cfg fs env).fs "a.out" = none := by
  unfold NroffBuilder.build at hok ⊢
  split at hok
  · simp at hok
  · split at hok
    · simp at hok
    · rename_i h1 h2
      rw [if_neg h1, if_neg h2]
      exact nrc_buildCompile_no_temp cfg env _ hok

/-- Helper: a normal (non-raising) `build_all` run leaves no `a.out`. -/
theorem troff_success_no_temp (fs : FS) (env : TroffEnv)
    (res : Bool × List String) (fs' : FS) (log : List Event)
    (h : TroffBuilder.build_all fs env = (.ok res, fs', log)) :
    fs'.lookup "a.out" = none := by
  unfold TroffBuilder.build_all at h
  split at h
  · simp at h
  · unfold TroffBuilder.assemble_targets at h
    split at h
    · simp at h
    · simp at h
    · rename_i b1 fs2 log1 heq1
      split at h
      · split at h
        · simp at h
        · simp at h
        · rename_i b2 fs3 log2 heq2
          split at h <;>
          · rw [Prod.ext_iff] at h
            have hfs : fs3 = fs' := congrArg Prod.fst h.2
            exact hfs ▸ assemble_file_ok_no_temp _ env "hytab.s" "hytab.o"
              (by decide) b2 fs3 log2 heq2
      · rw [Prod.ext_iff] at h
        have hfs : fs2 = fs' := congrArg Prod.fst h.2
        exact hfs ▸ assemble_file_ok_no_temp _ env "t.s" "t.o"
          (by decide) b1 fs2 log1 heq1

/-- `cfgQ` with backup disabled (the `--no-backup` CLI path). -/
def cfgQnb : NeqnCfg := { cfgQ with backup_existing := false }

/-- `fsQ` with a stale previously built `neqn` executable present. -/
def fsQ2 : FS := ("neqn", execFile 100 70) :: fsQ

/-- `envQ` except that unlinking `neqn` raises `OSError`. -/
def envQrenameFail : NeqnEnv :=
  { envQ with unlinkOk := fun n => n != "neqn" }

/-- C5 counterexample: a neqn run that reports success while the
conventional temporary output `a.out` is still present afterwards.
With backup disabled, a stale `neqn` present and `unlink("neqn")`
failing, `rename_executable` fails, the build falls back to the
"Using default executable name" warning, and validation passes on the
stale executable — so the run succeeds with `a.out` left behind. -/
theorem claim5_counterexample :
    (NeqnBuilder.build cfgQnb fsQ2 envQrenameFail).ok = true ∧
    (NeqnBuilder.build cfgQnb fsQ2 envQrenameFail).renameWarn = true ∧
    FS.lookup (NeqnBuilder.build cfgQnb fsQ2 envQrenameFail).fs "a.out" =
      some (execFile 600 63) := by decide

/-- C5 amended: after a successful run the conventional temporary
output `a.out` is never left behind by the assembly pipeline or the
nroff pipeline; the neqn pipeline however can report success with
`a.out` still present, via its rename-failure fallback combined with
a stale executable passing validation. -/
theorem claim5_amended_no_temp_after_success :
    (∀ cfg fs env, (NroffBuilder.build cfg fs env).ok = true →
      FS.lookup (NroffBuilder.build cfg fs env).fs "a.out" = none) ∧
    (∀ fs env res fs' log,
      TroffBuilder.build_all fs env = (.ok res, fs', log) →
      fs'.lookup "a.out" = none) :=
  ⟨nrc_success_no_temp, troff_success_no_temp⟩

/-- Witness for the amended C5: a successful nroff run and a normal
`build_all` run, both with `a.out` gone afterwards. -/
theorem claim5_witness :
    ((NroffBuilder.build cfgN fsN envN).ok = true ∧
      FS.lookup (NroffBuilder.build cfgN fsN envN).fs "a.out" = none) ∧
    (TroffBuilder.build_all fsA envA =
        (.ok (true, ["t.o", "hytab.o"]),
          [("hytab.o", plainFile 5 12), ("t.o", plainFile 5 11),
           ("t.s", plainFile 10 1), ("hytab.s", plainFile 10 2)],
          [Event.probe "as", Event.run "as", Event.run "as"]) ∧
      FS.lookup
        [("hytab.o", plainFile 5 12), ("t.o", plainFile 5 11),
         ("t.s", plainFile 10 1), ("hytab.s", plainFile 10 2)]
        "a.out" = none) := by
  have h1 : (NroffBuilder.build cfgN fsN envN).ok = true := by decide
  have h2 : TroffBuilder.build_all fsA envA =
      (.ok (true, ["t.o", "hytab.o"]),
        [("hytab.o", plainFile 5 12), ("t.o", plainFile 5 11),
         ("t.s", plainFile 10 1), ("hytab.s", plainFile 10 2)],
        [Event.probe "as", Event.run "as", Event.run "as"]) := by rfl
  exact ⟨⟨h1, claim5_amended_no_temp_after_success.1 cfgN fsN envN h1⟩,
    ⟨h2, claim5_amended_no_temp_after_success.2 fsA envA _ _ _ h2⟩⟩

end Claim5

section Claim2

/-- The backup step touches only the executable and its backup name. -/
theorem nrc_backup_preserves (cfg : NrcCfg) (fs : FS) (env : NrcEnv)
    (n : String) (h1 : n ≠ "nroff") (h2 : n ≠ "nroff.backup") :
    ((NroffBuilder.backup_existing_executable cfg fs env).2).lookup n =
      fs.lookup n := by
  unfold NroffBuilder.backup_existing_executable
  split
  · rfl
  · split
    · rfl
    · split
      · rfl
      · split
        · split
          · exact FS.lookup_erase_ne fs "nroff.backup" n h2
          · rfl
        · rw [FS.lookup_rename_other _ "nroff" "nroff.backup" n h1 h2]
          split
          · exact FS.lookup_erase_ne fs "nroff.backup" n h2
          · rfl

/-- The backup step touches only the executable and its backup name. -/
theorem neqn_backup_preserves (cfg : NeqnCfg) (fs : FS) (env : NeqnEnv)
    (n : String) (h1 : n ≠ "neqn") (h2 : n ≠ "neqn.backup") :
    ((NeqnBuilder.backup_existing_executable cfg fs env).2).lookup n =
      fs.lookup n := by
  unfold NeqnBuilder.backup_existing_executable
  split
  · rfl
  · split
    · rfl
    · split
      · rfl
      · split
        · split
          · exact FS.lookup_erase_ne fs "neqn.backup" n h2
          · rfl
        · rw [FS.lookup_rename_other _ "neqn" "neqn.backup" n h1 h2]
          split
          · exact FS.lookup_erase_ne fs "neqn.backup" n h2
          · rfl

/-- A non-empty list is not `isEmpty`. -/
theorem isEmpty_false_of_mem {α : Type} {x : α} {l : List α} (h : x ∈ l) :
    l.isEmpty = false := by
  cases l with
  | nil => cases h
  | cons a l => rfl

/-- `fsN` with the required source `n1.c` absent. -/
def fsNmissing : FS :=
  [("n2.c", plainFile 40 22),
   ("n3.c", plainFile 40 23), ("n4.c", plainFile 40 24),
   ("n5.c", plainFile 40 25), ("n6.c", plainFile 40 26),
   ("n7.c", plainFile 40 27), ("n8.c", plainFile 40 28),
   ("n9.c", plainFile 40 29), ("n10.c", plainFile 40 30),
   ("ni.c", plainFile 40 31), ("nii.c", plainFile 40 32),
   ("ntab.c", plainFile 40 33),
   ("t.o", plainFile 60 41), ("hytab.o", plainFile 60 42)]

/-- `fsN` with the required source `n1.c` present but of size zero. -/
def fsNempty : FS :=
  [("n1.c", plainFile 0 21), ("n2.c", plainFile 40 22),
   ("n3.c", plainFile 40 23), ("n4.c", plainFile 40 24),
   ("n5.c", plainFile 40 25), ("n6.c", plainFile 40 26),
   ("n7.c", plainFile 40 27), ("n8.c", plainFile 40 28),
   ("n9.c", plainFile 40 29), ("n10.c", plainFile 40 30),
   ("ni.c", plainFile 40 31), ("nii.c", plainFile 40 32),
   ("ntab.c", plainFile 40 33),
   ("t.o", plainFile 60 41), ("hytab.o", plainFile 60 42)]

/-- C2 counterexample: a run with a required input file of size zero
that does NOT fail and invokes the build tools anyway.  `n1.c` exists
with size 0; `check_dependencies` only warns about empty files, so the
nroff build invokes `cc` and `strip` and completes successfully. -/
theorem claim2_counterexample :
    FS.lookup fsNempty "n1.c" = some (plainFile 0 21) ∧
    (NroffBuilder.build cfgN fsNempty envN).ok = true ∧
    runEvents (NroffBuilder.build cfgN fsNempty envN).log =
      ["cc", "strip"] := by decide

/-- C2 amended: an ABSENT required input makes the nroff and neqn
runs fail with zero build-tool invocations observed (availability
probes aside); in the assembly target, each source is validated
immediately before its assembly, so an absent or size-zero source
raises `MissingInput`/`EmptyInput` with no assembler invocation for
that file.  A size-zero input elsewhere only produces a warning and
the run proceeds (see the counterexample). -/
theorem claim2_amended_missing_input_preflight :
    (∀ cfg fs env,
      (∃ f ∈ NroffBuilder.source_files ++ NroffBuilder.object_files,
        FS.lookup fs f = none) →
      (NroffBuilder.build cfg fs env).ok = false ∧
      runEvents (NroffBuilder.build cfg fs env).log = []) ∧
    (∀ cfg fs env, FS.lookup fs "ne.g" = none →
      (NeqnBuilder.build cfg fs env).ok = false ∧
      runEvents (NeqnBuilder.build cfg fs env).log = []) ∧
    (∀ fs env src out, FS.lookup fs src = none →
      TroffBuilder.assemble_file fs env src out =
        (.error (.ab (.sourceNotFound src)), fs, [])) ∧
    (∀ fs env src out i, FS.lookup fs src = some i →
      i.isFile = true → i.readable = true → i.size = 0 →
      TroffBuilder.assemble_file fs env src out =
        (.error (.ab (.sourceEmpty src)), fs, [])) := by
  refine ⟨?_, ?_, ?_, ?_⟩
  · rintro cfg fs env ⟨f, hf, hnone⟩
    have hall : ∀ g ∈ NroffBuilder.source_files ++ NroffBuilder.object_files,
        g ≠ "nroff" ∧ g ≠ "nroff.backup" := by decide
    have hne := hall f hf
    have hb : ((NroffBuilder.backup_existing_executable cfg fs env).2).lookup
        f = none := by
      rw [nrc_backup_preserves cfg fs env f hne.1 hne.2]
      exact hnone
    have hdep : NroffBuilder.check_dependencies
        (NroffBuilder.backup_existing_executable cfg fs env).2 = false := by
      unfold NroffBuilder.check_dependencies
      apply isEmpty_false_of_mem
      have hmem : f ∈ (NroffBuilder.source_files.filter (fun g =>
          !(FS.fileExists (NroffBuilder.backup_existing_executable
            cfg fs env).2 g))) ++
          (NroffBuilder.object_files.filter (fun g =>
          !(FS.fileExists (NroffBuilder.backup_existing_executable
            cfg fs env).2 g))) := by
        rcases List.mem_append.mp hf with hs | ho
        · exact List.mem_append.mpr (Or.inl (List.mem_filter.mpr
            ⟨hs, by simp [FS.fileExists, hb]⟩))
        · exact List.mem_append.mpr (Or.inr (List.mem_filter.mpr
            ⟨ho, by simp [FS.fileExists, hb]⟩))
      exact hmem
    by_cases hbk : (NroffBuilder.backup_existing_executable cfg fs env).1 <;>
      constructor <;> simp [NroffBuilder.build, hbk, hdep, runEvents]
  · intro cfg fs env hnone
    have hb : ((NeqnBuilder.backup_existing_executable cfg fs env).2).lookup
        "ne.g" = none := by
      rw [neqn_backup_preserves cfg fs env "ne.g" (by decide) (by decide)]
      exact hnone
    have hdep : (NeqnBuilder.check_dependencies
        (NeqnBuilder.backup_existing_executable cfg fs env).2 env).1 =
        false := by
      unfold NeqnBuilder.check_dependencies
      simp [FS.fileExists, hb]
    by_cases hbk : (NeqnBuilder.backup_existing_executable cfg fs env).1
    · refine ⟨by simp [NeqnBuilder.build, hbk, hdep], ?_⟩
      have hlog : (NeqnBuilder.build cfg fs env).log =
          (NeqnBuilder.check_dependencies
            (NeqnBuilder.backup_existing_executable cfg fs env).2 env).2 := by
        simp [NeqnBuilder.build, hbk, hdep]
      rw [hlog, runEvents_deps]
    · refine ⟨by simp [NeqnBuilder.build, hbk], ?_⟩
      have hlog : (NeqnBuilder.build cfg fs env).log = [] := by
        simp [NeqnBuilder.build, hbk]
      rw [hlog]
      rfl
  · intro fs env src out hnone
    simp [TroffBuilder.assemble_file, TroffBuilder.validate_source_file, hnone]
  · intro fs env src out i hsome hisf hread hsz
    simp [TroffBuilder.assemble_file, TroffBuilder.validate_source_file,
      hsome, hisf, hread, hsz]

/-- Witness for the amended C2: a missing `n1.c` fails the nroff run
with no build-tool invocation; a missing grammar fails the neqn run
likewise; a missing and an empty assembly source raise before the
assembler runs. -/
theorem claim2_witness :
    ((∃ f ∈ NroffBuilder.source_files ++ NroffBuilder.object_files,
        FS.lookup fsNmissing f = none) ∧
      (NroffBuilder.build cfgN fsNmissing envN).ok = false ∧
      runEvents (NroffBuilder.build cfgN fsNmissing envN).log = []) ∧
    (FS.lookup [("ne1.c", plainFile 40 52)] "ne.g" = none ∧
      (NeqnBuilder.build cfgQ [("ne1.c", plainFile 40 52)] envQ).ok = false ∧
      runEvents
        (NeqnBuilder.build cfgQ [("ne1.c", plainFile 40 52)] envQ).log = []) ∧
    (TroffBuilder.assemble_file [] envA "t.s" "t.o" =
      (.error (.ab (.sourceNotFound "t.s")), [], [])) ∧
    (TroffBuilder.assemble_file [("t.s", plainFile 0 1)] envA "t.s" "t.o" =
      (.error (.ab (.sourceEmpty "t.s")), [("t.s", plainFile 0 1)], [])) := by
  have h1 : ∃ f ∈ NroffBuilder.source_files ++ NroffBuilder.object_files,
      FS.lookup fsNmissing f = none := ⟨"n1.c", by decide, by decide⟩
  exact ⟨⟨h1,
      claim2_amended_missing_input_preflight.1 cfgN fsNmissing envN h1⟩,
    ⟨by decide, claim2_amended_missing_input_preflight.2.1 cfgQ
      [("ne1.c", plainFile 40 52)] envQ (by decide)⟩,
    claim2_amended_missing_input_preflight.2.2.1 [] envA "t.s" "t.o"
      (by decide),
    claim2_amended_missing_input_preflight.2.2.2
      [("t.s", plainFile 0 1)] envA "t.s" "t.o" (plainFile 0 1)
      (by decide) rfl rfl rfl⟩

end Claim2

section Claim1

/-- Passing nroff validation means the executable exists with the
executable bit set. -/
theorem nrc_validate_build_ok (fs : FS) (env : NrcEnv)
    (h : (NroffBuilder.validate_build fs env).1 = true) :
    ∃ i, fs.lookup "nroff" = some i ∧ i.executable = true := by
  unfold NroffBuilder.validate_build at h
  split at h
  · simp at h
  · rename_i i heq
    split at h
    · simp at h
    · rename_i hx
      exact ⟨i, heq, bool_pos_of_not_not hx⟩

/-- Passing neqn validation means the executable exists with the
executable bit set. -/
theorem neqn_validate_build_ok (fs : FS) (env : NeqnEnv)
    (h : (NeqnBuilder.validate_build fs env).1 = true) :
    ∃ i, fs.lookup "neqn" = some i ∧ i.executable = true := by
  unfold NeqnBuilder.validate_build at h
  split at h
  · simp at h
  · rename_i i heq
    split at h
    · simp at h
    · rename_i hx
      exact ⟨i, heq, bool_pos_of_not_not hx⟩

/-- Chain: the nroff validate step. -/
theorem nrc_buildValidate_ok_exec (env : NrcEnv) (fs : FS)
    (logAcc : List Event)
    (h : (NroffBuilder.buildValidate env fs logAcc).ok = true) :
    ∃ i, FS.lookup (NroffBuilder.buildValidate env fs logAcc).fs "nroff" =
      some i ∧ i.executable = true := by
  unfold NroffBuilder.buildValidate at h ⊢
  split at h
  · simp at h
  · rename_i h6
    rw [if_neg h6]
    exact nrc_validate_build_ok fs env (bool_pos_of_not_not h6)

/-- Chain: the nroff rename step. -/
theorem nrc_buildRename_ok_exec (env : NrcEnv) (fs : FS)
    (logAcc : List Event)
    (h : (NroffBuilder.buildRename env fs logAcc).ok = true) :
    ∃ i, FS.lookup (NroffBuilder.buildRename env fs logAcc).fs "nroff" =
      some i ∧ i.executable = true := by
  unfold NroffBuilder.buildRename at h ⊢
  split at h
  · simp at h
  · rename_i h5
    rw [if_neg h5]
    exact nrc_buildValidate_ok_exec env _ _ h

/-- Chain: the nroff strip step. -/
theorem nrc_buildStrip_ok_exec (cfg : NrcCfg) (env : NrcEnv) (fs : FS)
    (logAcc : List Event)
    (h : (NroffBuilder.buildStrip cfg env fs logAcc).ok = true) :
    ∃ i, FS.lookup (NroffBuilder.buildStrip cfg env fs logAcc).fs "nroff" =
      some i ∧ i.executable = true := by
  unfold NroffBuilder.buildStrip at h ⊢
  split at h
  · simp at h
  · rename_i h4
    rw [if_neg h4]
    exact nrc_buildRename_ok_exec env _ _ h

/-- Chain: the nroff compile step. -/
theorem nrc_buildCompile_ok_exec (cfg : NrcCfg) (env : NrcEnv) (fs : FS)
    (h : (NroffBuilder.buildCompile cfg env fs).ok = true) :
    ∃ i, FS.lookup (NroffBuilder.buildCompile cfg env fs).fs "nroff" =
      some i ∧ i.executable = true := by
  unfold NroffBuilder.buildCompile at h ⊢
  split at h
  · simp at h
  · rename_i h3
    rw [if_neg h3]
    exact nrc_buildStrip_ok_exec cfg env _ _ h

/-- Chain: the neqn tail (cleanup then validate). -/
theorem neqn_buildTail_ok_exec (cfg : NeqnCfg) (env : NeqnEnv)
    (rwn : Bool) (fs : FS) (logAcc : List Event)
    (h : (NeqnBuilder.buildTail cfg env rwn fs logAcc).ok = true) :
    ∃ i, FS.lookup (NeqnBuilder.buildTail cfg env rwn fs logAcc).fs "neqn" =
      some i ∧ i.executable = true := by
  unfold NeqnBuilder.buildTail at h ⊢
  split at h
  · simp at h
  · rename_i hv
    rw [if_neg hv]
    exact neqn_validate_build_ok _ env (bool_pos_of_not_not hv)

/-- Chain: the neqn rename step (including its fallback branch). -/
theorem neqn_buildRename_ok_exec (cfg : NeqnCfg) (env : NeqnEnv) (fs : FS)
    (logAcc : List Event)
    (h : (NeqnBuilder.buildRename cfg env fs logAcc).ok = true) :
    ∃ i, FS.lookup (NeqnBuilder.buildRename cfg env fs logAcc).fs "neqn" =
      some i ∧ i.executable = true := by
  unfold NeqnBuilder.buildRename at h ⊢
  split at h
  · split at h
    · rename_i h5 hfb
      rw [if_pos h5, if_pos hfb]
      exact neqn_buildTail_ok_exec cfg env _ _ _ h
    · simp at h
  · rename_i h5
    rw [if_neg h5]
    exact neqn_buildTail_ok_exec cfg env _ _ _ h

/-- Chain: the neqn compile step. -/
theorem neqn_buildCompile_ok_exec (cfg : NeqnCfg) (env : NeqnEnv) (fs : FS)
    (logAcc : List Event)
    (h : (NeqnBuilder.buildCompile cfg env fs logAcc).ok = true) :
    ∃ i, FS.lookup (NeqnBuilder.buildCompile cfg env fs logAcc).fs "neqn" =
      some i ∧ i.executable = true := by
  unfold NeqnBuilder.buildCompile at h ⊢
  split at h
  · simp at h
  · rename_i h3
    rw [if_neg h3]
    exact neqn_buildRename_ok_exec cfg env _ _ h

/-- Chain: the neqn parser-generation step. -/
theorem neqn_buildGen_ok_exec (cfg : NeqnCfg) (env : NeqnEnv) (fs : FS)
    (logAcc : List Event)
    (h : (NeqnBuilder.buildGen cfg env fs logAcc).ok = true) :
    ∃ i, FS.lookup (NeqnBuilder.buildGen cfg env fs logAcc).fs "neqn" =
      some i ∧ i.executable = true := by
  unfold NeqnBuilder.buildGen at h ⊢
  split at h
  · simp at h
  · rename_i h2
    rw [if_neg h2]
    exact neqn_buildCompile_ok_exec cfg env _ _ h

/-- A verified output exists and is non-empty. -/
theorem verify_output_ok_lookup (fs3 : FS) (out : String) (r : Bool)
    (fs' : FS) (h : TroffBuilder.verify_output fs3 out = (.ok r, fs')) :
    ∃ i, fs'.lookup out = some i ∧ i.size ≠ 0 := by
  unfold TroffBuilder.verify_output at h
  split at h
  · simp at h
  · rename_i i heq
    split at h
    · simp at h
    · rename_i hsz
      rw [Prod.ext_iff] at h
      have h2 : fs3 = fs' := h.2
      exact ⟨i, by rw [← h2]; exact heq, hsz⟩

/-- A successful placement leaves the output present and non-empty. -/
theorem place_output_ok_lookup (fs : FS) (env : TroffEnv) (src out : String)
    (r : Bool) (fs' : FS)
    (h : TroffBuilder.place_output fs env src out = (.ok r, fs')) :
    ∃ i, fs'.lookup out = some i ∧ i.size ≠ 0 := by
  unfold TroffBuilder.place_output at h
  split at h
  · simp at h
  · split at h
    · simp at h
    · split at h
      · simp at h
      · exact verify_output_ok_lookup _ out r fs' h

/-- A successful placement changes nothing besides the output name and
`a.out`. -/
theorem place_output_ok_frame (fs : FS) (env : TroffEnv) (src out : String)
    (r : Bool) (fs' : FS)
    (h : TroffBuilder.place_output fs env src out = (.ok r, fs'))
    (n : String) (h1 : n ≠ out) (h2 : n ≠ "a.out") :
    fs'.lookup n = fs.lookup n := by
  unfold TroffBuilder.place_output at h
  split at h
  · simp at h
  · split at h
    · simp at h
    · split at h
      · simp at h
      · have hfs' : fs' = ((if fs.fileExists out then fs.erase out
            else fs).rename "a.out" out) := by
          have hsnd := congrArg Prod.snd h
          rw [verify_output_fs] at hsnd
          exact hsnd.symm
        subst hfs'
        rw [FS.lookup_rename_other _ "a.out" out n h2 h1]
        split
        · exact FS.lookup_erase_ne fs out n h1
        · rfl

/-- `_clean_temp_files` changes nothing besides `a.out`. -/
theorem clean_temp_frame (fs : FS) (env : TroffEnv) (n : String)
    (h : n ≠ "a.out") :
    (TroffBuilder.clean_temp_files fs env).lookup n = fs.lookup n := by
  unfold TroffBuilder.clean_temp_files
  split
  · split
    · exact FS.lookup_erase_ne fs "a.out" n h
    · rfl
  · rfl

/-- A successful `assemble_file` (with an assembler that writes only
`a.out`) leaves the output present and non-empty, and changes nothing
besides the output name and `a.out`. -/
theorem assemble_file_ok_spec (fs : FS) (env : TroffEnv) (src out : String)
    (r : Bool) (fs' : FS) (log : List Event)
    (heff : ∀ e ∈ env.asEffect src, e.1 = "a.out")
    (h : TroffBuilder.assemble_file fs env src out = (.ok r, fs', log)) :
    (∃ i, fs'.lookup out = some i ∧ i.size ≠ 0) ∧
    (∀ n, n ≠ out → n ≠ "a.out" → fs'.lookup n = fs.lookup n) := by
  unfold TroffBuilder.assemble_file at h
  split at h
  · simp at h
  · split at h
    · rw [Prod.ext_iff] at h
      have hok : TroffBuilder.place_output
          (applyEffect (TroffBuilder.clean_temp_files fs env)
            (env.asEffect src)) env src out = (.ok r, fs') :=
        Prod.ext_iff.mpr ⟨h.1, congrArg Prod.fst h.2⟩
      constructor
      · exact place_output_ok_lookup _ env src out r fs' hok
      · intro n h1 h2
        rw [place_output_ok_frame _ env src out r fs' hok n h1 h2,
          applyEffect_lookup_notin _ _ n
            (fun e he => fun hc => h2 (hc ▸ (heff e he).symm ▸ rfl)),
          clean_temp_frame fs env n h2]
    · simp at h
    · simp at h
    · simp at h

/-- `envN` with a compiler that exits 0 but writes a zero-byte
(executable) `a.out`, and a strip that rewrites nothing. -/
def envNzero : NrcEnv :=
  { envN with ccEffect := [("a.out", execFile 0 90)], stripEffect := [] }

/-- C1 counterexample: an nroff run that reports success while the
final artifact is EMPTY.  `cc` exits 0 writing a zero-byte executable
`a.out`; no stage of nrc.py checks the artifact's size (validate_build
checks existence and the executable bit only), so the build succeeds
with a size-0 `nroff`. -/
theorem claim1_counterexample :
    (NroffBuilder.build cfgN fsN envNzero).ok = true ∧
    FS.lookup (NroffBuilder.build cfgN fsN envNzero).fs "nroff" =
      some (execFile 0 90) ∧
    (execFile 0 90).size = 0 := by decide

/-- C1 amended: a successful run always leaves the declared final
artifact present, and for the executable targets it carries the
executable permission bit; non-emptiness however is only enforced by
the assembly target (whose `assemble_file` re-checks the placed object
file's size) — the nroff and neqn pipelines can report success with an
empty executable. -/
theorem claim1_amended_success_artifact :
    (∀ cfg fs env, (NroffBuilder.build cfg fs env).ok = true →
      ∃ i, FS.lookup (NroffBuilder.build cfg fs env).fs "nroff" = some i ∧
        i.executable = true) ∧
    (∀ cfg fs env, (NeqnBuilder.build cfg fs env).ok = true →
      ∃ i, FS.lookup (NeqnBuilder.build cfg fs env).fs "neqn" = some i ∧
        i.executable = true) ∧
    (∀ fs env res fs' log,
      (∀ src e, e ∈ env.asEffect src → e.1 = "a.out") →
      TroffBuilder.build_all fs env = (.ok res, fs', log) →
      (∃ i, fs'.lookup "t.o" = some i ∧ i.size ≠ 0) ∧
      (∃ j, fs'.lookup "hytab.o" = some j ∧ j.size ≠ 0)) := by
  refine ⟨?_, ?_, ?_⟩
  · intro cfg fs env hok
    unfold NroffBuilder.build at hok ⊢
    split at hok
    · simp at hok
    · split at hok
      · simp at hok
      · rename_i h1 h2
        rw [if_neg h1, if_neg h2]
        exact nrc_buildCompile_ok_exec cfg env _ hok
  · intro cfg fs env hok
    unfold NeqnBuilder.build at hok ⊢
    split at hok
    · simp at hok
    · split at hok
      · simp at hok
      · rename_i h1 h2
        rw [if_neg h1, if_neg h2]
        exact neqn_buildGen_ok_exec cfg env _ _ hok
  · intro fs env res fs' log heff h
    unfold TroffBuilder.build_all at h
    split at h
    · simp at h
    · unfold TroffBuilder.assemble_targets at h
      split at h
      · simp at h
      · simp at h
      · rename_i b1 fs2 log1 heq1
        have hb1 : b1 = true := assemble_file_ok_true _ _ _ _ _ _ _ heq1
        subst hb1
        rw [if_pos rfl] at h
        split at h
        · simp at h
        · simp at h
        · rename_i b2 fs3 log2 heq2
          have hspec1 := assemble_file_ok_spec _ env "t.s" "t.o" _ _ _
            (heff "t.s") heq1
          have hspec2 := assemble_file_ok_spec _ env "hytab.s" "hytab.o" _ _ _
            (heff "hytab.s") heq2
          have hb2 : b2 = true := assemble_file_ok_true _ _ _ _ _ _ _ heq2
          subst hb2
          rw [if_pos rfl, Prod.ext_iff] at h
          have hfs : fs3 = fs' := congrArg Prod.fst h.2
          subst hfs
          constructor
          · obtain ⟨i, hi, hsz⟩ := hspec1.1
            exact ⟨i, by
              rw [hspec2.2 "t.o" (by decide) (by decide)]
              exact hi, hsz⟩
          · exact hspec2.1

/-- Witness for the amended C1: successful nroff, neqn and assembly
runs with the final artifacts present (and executable, resp.
non-empty). -/
theorem claim1_witness :
    ((NroffBuilder.build cfgN fsN envN).ok = true ∧
      ∃ i, FS.lookup (NroffBuilder.build cfgN fsN envN).fs "nroff" =
          some i ∧ i.executable = true) ∧
    ((NeqnBuilder.build cfgQ fsQ envQ).ok = true ∧
      ∃ i, FS.lookup (NeqnBuilder.build cfgQ fsQ envQ).fs "neqn" =
          some i ∧ i.executable = true) ∧
    (TroffBuilder.build_all fsA envA =
        (.ok (true, ["t.o", "hytab.o"]),
          [("hytab.o", plainFile 5 12), ("t.o", plainFile 5 11),
           ("t.s", plainFile 10 1), ("hytab.s", plainFile 10 2)],
          [Event.probe "as", Event.run "as", Event.run "as"]) ∧
      ((∃ i, FS.lookup
          [("hytab.o", plainFile 5 12), ("t.o", plainFile 5 11),
           ("t.s", plainFile 10 1), ("hytab.s", plainFile 10 2)] "t.o" =
          some i ∧ i.size ≠ 0) ∧
        (∃ j, FS.lookup
          [("hytab.o", plainFile 5 12), ("t.o", plainFile 5 11),
           ("t.s", plainFile 10 1), ("hytab.s", plainFile 10 2)] "hytab.o" =
          some j ∧ j.size ≠ 0))) := by
  have h1 : (NroffBuilder.build cfgN fsN envN).ok = true := by decide
  have h2 : (NeqnBuilder.build cfgQ fsQ envQ).ok = true := by decide
  have h3 : TroffBuilder.build_all fsA envA =
      (.ok (true, ["t.o", "hytab.o"]),
        [("hytab.o", plainFile 5 12), ("t.o", plainFile 5 11),
         ("t.s", plainFile 10 1), ("hytab.s", plainFile 10 2)],
        [Event.probe "as", Event.run "as", Event.run "as"]) := by rfl
  have heff : ∀ src e, e ∈ envA.asEffect src → e.1 = "a.out" := by
    intro src e he
    have he2 : e = ("a.out", plainFile 5 (if src = "t.s" then 11 else 12)) := by
      simpa [envA] using he
    rw [he2]
  exact ⟨⟨h1, claim1_amended_success_artifact.1 cfgN fsN envN h1⟩,
    ⟨h2, claim1_amended_success_artifact.2.1 cfgQ fsQ envQ h2⟩,
    ⟨h3, claim1_amended_success_artifact.2.2 fsA envA _ _ _ heff h3⟩⟩

end Claim1

section Claim3

/-- With backup enabled and a prior `nroff` present, the backup step
either fails leaving `nroff` untouched, or succeeds having moved it —
with its full metadata and content — to `nroff.backup`. -/
theorem nrc_backup_cases (cfg : NrcCfg) (fs : FS) (env : NrcEnv)
    (i : FileInfo) (hb : cfg.backup_existing = true)
    (hi : fs.lookup "nroff" = some i) :
    ((NroffBuilder.backup_existing_executable cfg fs env).1 = false ∧
      ((NroffBuilder.backup_existing_executable cfg fs env).2).lookup
        "nroff" = some i) ∨
    ((NroffBuilder.backup_existing_executable cfg fs env).1 = true ∧
      ((NroffBuilder.backup_existing_executable cfg fs env).2).lookup
        "nroff.backup" = some i) := by
  unfold NroffBuilder.backup_existing_executable
  rw [if_neg (by simp [hb])]
  simp only [hi]
  split
  · exact Or.inl ⟨rfl, hi⟩
  · split
    · refine Or.inl ⟨rfl, ?_⟩
      split
      · rw [FS.lookup_erase_ne fs "nroff.backup" "nroff" (by decide)]
        exact hi
      · exact hi
    · refine Or.inr ⟨rfl, ?_⟩
      apply FS.lookup_rename_dst
      split
      · rw [FS.lookup_erase_ne fs "nroff.backup" "nroff" (by decide)]
        exact hi
      · exact hi

/-- With backup enabled and a prior `neqn` present, the backup step
either fails leaving `neqn` untouched, or succeeds having moved it to
`neqn.backup`. -/
theorem neqn_backup_cases (cfg : NeqnCfg) (fs : FS) (env : NeqnEnv)
    (i : FileInfo) (hb : cfg.backup_existing = true)
    (hi : fs.lookup "neqn" = some i) :
    ((NeqnBuilder.backup_existing_executable cfg fs env).1 = false ∧
      ((NeqnBuilder.backup_existing_executable cfg fs env).2).lookup
        "neqn" = some i) ∨
    ((NeqnBuilder.backup_existing_executable cfg fs env).1 = true ∧
      ((NeqnBuilder.backup_existing_executable cfg fs env).2).lookup
        "neqn.backup" = some i) := by
  unfold NeqnBuilder.backup_existing_executable
  rw [if_neg (by simp [hb])]
  simp only [hi]
  split
  · exact Or.inl ⟨rfl, hi⟩
  · split
    · refine Or.inl ⟨rfl, ?_⟩
      split
      · rw [FS.lookup_erase_ne fs "neqn.backup" "neqn" (by decide)]
        exact hi
      · exact hi
    · refine Or.inr ⟨rfl, ?_⟩
      apply FS.lookup_rename_dst
      split
      · rw [FS.lookup_erase_ne fs "neqn.backup" "neqn" (by decide)]
        exact hi
      · exact hi

/-- The compile-and-link step touches only what the compiler writes. -/
theorem nrc_compile_frame (fs : FS) (env : NrcEnv) (n : String)
    (heff : ∀ e ∈ env.ccEffect, e.1 ≠ n) :
    ((NroffBuilder.compile_and_link fs env).2.1).lookup n = fs.lookup n := by
  unfold NroffBuilder.compile_and_link
  cases hr : env.ccResult <;>
    simp [applyEffect_lookup_notin fs _ n heff]

/-- The strip step touches only what `strip` writes. -/
theorem nrc_strip_frame (cfg : NrcCfg) (fs : FS) (env : NrcEnv) (n : String)
    (heff : ∀ e ∈ env.stripEffect, e.1 ≠ n) :
    ((NroffBuilder.strip_executable cfg fs env).2.1).lookup n =
      fs.lookup n := by
  unfold NroffBuilder.strip_executable
  split
  · rfl
  · split
    · rfl
    · cases hr : env.stripResult <;>
        simp [applyEffect_lookup_notin fs _ n heff]

/-- `rename_executable` touches only `nroff` and `a.out`. -/
theorem nrc_rename_exec_frame (fs : FS) (env : NrcEnv) (n : String)
    (h1 : n ≠ "nroff") (h2 : n ≠ "a.out") :
    ((NroffBuilder.rename_executable fs env).2).lookup n = fs.lookup n := by
  unfold NroffBuilder.rename_executable
  split
  · rfl
  · split
    · rfl
    · split
      · split
        · exact FS.lookup_erase_ne fs "nroff" n h1
        · rfl
      · rw [FS.lookup_rename_other _ "a.out" "nroff" n h2 h1]
        split
        · exact FS.lookup_erase_ne fs "nroff" n h1
        · rfl

/-- From the rename step on, `nroff.backup` is never touched. -/
theorem nrc_buildRename_frame (env : NrcEnv) (fs : FS) (logAcc : List Event) :
    ((NroffBuilder.buildRename env fs logAcc).fs).lookup "nroff.backup" =
      fs.lookup "nroff.backup" := by
  unfold NroffBuilder.buildRename
  split
  · exact nrc_rename_exec_frame fs env _ (by decide) (by decide)
  · rw [nrc_buildValidate_fs]
    exact nrc_rename_exec_frame fs env _ (by decide) (by decide)

/-- From the strip step on, `nroff.backup` is never touched. -/
theorem nrc_buildStrip_frame (cfg : NrcCfg) (env : NrcEnv) (fs : FS)
    (logAcc : List Event)
    (hs : ∀ e ∈ env.stripEffect, e.1 ≠ "nroff.backup") :
    ((NroffBuilder.buildStrip cfg env fs logAcc).fs).lookup "nroff.backup" =
      fs.lookup "nroff.backup" := by
  unfold NroffBuilder.buildStrip
  split
  · exact nrc_strip_frame cfg fs env _ hs
  · rw [nrc_buildRename_frame]
    exact nrc_strip_frame cfg fs env _ hs

/-- From the compile step on, `nroff.backup` is never touched. -/
theorem nrc_buildCompile_frame (cfg : NrcCfg) (env : NrcEnv) (fs : FS)
    (hc : ∀ e ∈ env.ccEffect, e.1 ≠ "nroff.backup")
    (hs : ∀ e ∈ env.stripEffect, e.1 ≠ "nroff.backup") :
    ((NroffBuilder.buildCompile cfg env fs).fs).lookup "nroff.backup" =
      fs.lookup "nroff.backup" := by
  unfold NroffBuilder.buildCompile
  split
  · exact nrc_compile_frame fs env _ hc
  · rw [nrc_buildStrip_frame cfg env _ _ hs]
    exact nrc_compile_frame fs env _ hc

/-- The parser-generation step touches only what `yacc` writes. -/
theorem neqn_gen_frame (fs : FS) (env : NeqnEnv) (n : String)
    (heff : ∀ e ∈ env.yaccEffect, e.1 ≠ n) :
    ((NeqnBuilder.generateParser fs env).2.1).lookup n = fs.lookup n := by
  unfold NeqnBuilder.generateParser
  cases hr : env.yaccResult <;>
    simp [applyEffect_lookup_notin fs _ n heff]

/-- The compile step touches only what `cc` writes. -/
theorem neqn_compile_frame (fs : FS) (env : NeqnEnv) (n : String)
    (heff : ∀ e ∈ env.ccEffect, e.1 ≠ n) :
    ((NeqnBuilder.compile_sources fs env).2.1).lookup n = fs.lookup n := by
  unfold NeqnBuilder.compile_sources
  split
  · rfl
  · cases hr : env.ccResult <;>
      simp [applyEffect_lookup_notin fs _ n heff]

/-- `NeqnBuilder.rename_executable` touches only `neqn` and the
temporary name it picked (`a.out` or `ne`). -/
theorem neqn_rename_exec_frame (fs : FS) (env : NeqnEnv) (n : String)
    (h1 : n ≠ "neqn") (h2 : n ≠ "a.out") (h3 : n ≠ "ne") :
    ((NeqnBuilder.rename_executable fs env).2).lookup n = fs.lookup n := by
  unfold NeqnBuilder.rename_executable
  split
  · rfl
  · rename_i t heq
    have ht : n ≠ t := by
      split at heq
      · cases heq; exact h2
      · split at heq
        · cases heq; exact h3
        · cases heq
    split
    · rfl
    · split
      · split
        · exact FS.lookup_erase_ne fs "neqn" n h1
        · rfl
      · rw [FS.lookup_rename_other _ t "neqn" n ht h1]
        split
        · exact FS.lookup_erase_ne fs "neqn" n h1
        · rfl

/-- The cleanup pass touches only names matching its patterns. -/
theorem neqn_cleanup_frame (cfg : NeqnCfg) (fs : FS) (env : NeqnEnv)
    (n : String) (h1 : globMatch "*.o" n = false)
    (h2 : globMatch "y.tab.c" n = false) :
    ((NeqnBuilder.cleanup_intermediate_files cfg fs env).2).lookup n =
      fs.lookup n := by
  by_cases hen : (cfg.cleanup_objects || cfg.cleanup_generated) = true
  · rw [cleanup_lookup cfg fs env n hen, if_neg (by simp [h1, h2])]
  · have hposc : (!(cfg.cleanup_objects || cfg.cleanup_generated)) = true := by
      revert hen
      cases (cfg.cleanup_objects || cfg.cleanup_generated) <;> simp
    unfold NeqnBuilder.cleanup_intermediate_files
    rw [if_pos hposc]

/-- The build tail (cleanup then validate) never touches
`neqn.backup`. -/
theorem neqn_buildTail_frame (cfg : NeqnCfg) (env : NeqnEnv) (rwn : Bool)
    (fs : FS) (logAcc : List Event) :
    ((NeqnBuilder.buildTail cfg env rwn fs logAcc).fs).lookup "neqn.backup" =
      fs.lookup "neqn.backup" := by
  unfold NeqnBuilder.buildTail
  split <;> exact neqn_cleanup_frame cfg fs env _ (by decide) (by decide)

/-- From the rename step on, `neqn.backup` is never touched. -/
theorem neqn_buildRename_frame (cfg : NeqnCfg) (env : NeqnEnv) (fs : FS)
    (logAcc : List Event) :
    ((NeqnBuilder.buildRename cfg env fs logAcc).fs).lookup "neqn.backup" =
      fs.lookup "neqn.backup" := by
  unfold NeqnBuilder.buildRename
  split
  · split
    · rw [neqn_buildTail_frame]
      exact neqn_rename_exec_frame fs env _ (by decide) (by decide) (by decide)
    · exact neqn_rename_exec_frame fs env _ (by decide) (by decide) (by decide)
  · rw [neqn_buildTail_frame]
    exact neqn_rename_exec_frame fs env _ (by decide) (by decide) (by decide)

/-- From the compile step on, `neqn.backup` is never touched. -/
theorem neqn_buildCompile_frame (cfg : NeqnCfg) (env : NeqnEnv) (fs : FS)
    (logAcc : List Event)
    (hc : ∀ e ∈ env.ccEffect, e.1 ≠ "neqn.backup") :
    ((NeqnBuilder.buildCompile cfg env fs logAcc).fs).lookup "neqn.backup" =
      fs.lookup "neqn.backup" := by
  unfold NeqnBuilder.buildCompile
  split
  · exact neqn_compile_frame fs env _ hc
  · rw [neqn_buildRename_frame]
    exact neqn_compile_frame fs env _ hc

/-- From the parser-generation step on, `neqn.backup` is never
touched. -/
theorem neqn_buildGen_frame (cfg : NeqnCfg) (env : NeqnEnv) (fs : FS)
    (logAcc : List Event)
    (hy : ∀ e ∈ env.yaccEffect, e.1 ≠ "neqn.backup")
    (hc : ∀ e ∈ env.ccEffect, e.1 ≠ "neqn.backup") :
    ((NeqnBuilder.buildGen cfg env fs logAcc).fs).lookup "neqn.backup" =
      fs.lookup "neqn.backup" := by
  unfold NeqnBuilder.buildGen
  split
  · exact neqn_gen_frame fs env _ hy
  · rw [neqn_buildCompile_frame cfg env _ _ hc]
    exact neqn_gen_frame fs env _ hy

/-- Assembly working directory holding previously built object files
but missing the source `t.s`. -/
def fsA3 : FS :=
  [("t.o", plainFile 60 41), ("hytab.o", plainFile 60 42),
   ("hytab.s", plainFile 10 2)]

/-- C3 counterexample: a failed assembly run that destroys the
previously built artifact.  `build_all` deletes the existing `t.o`
and `hytab.o` before building (clean_output_files) and TroffBuilder
has no backup step at all; when assembling `t.s` then fails (here:
the source is missing), the prior `t.o` is gone and no backup of it
exists anywhere. -/
theorem claim3_counterexample :
    FS.lookup fsA3 "t.o" = some (plainFile 60 41) ∧
    (TroffBuilder.build_all fsA3 envA).1 =
      .error (.ab (.sourceNotFound "t.s")) ∧
    FS.lookup (TroffBuilder.build_all fsA3 envA).2.1 "t.o" = none ∧
    FS.lookup (TroffBuilder.build_all fsA3 envA).2.1 "t.o.backup" =
      none := by decide

/-- C3 amended: for the nroff and neqn pipelines with backup enabled
(and tools that do not write to the backup name), a failed run leaves
the previously built executable either still in place or preserved —
with its pre-run metadata and content — under `<finalName>.backup`,
because the backup rename precedes every destructive rename or delete
of it.  The assembly pipeline gives no such guarantee: it deletes the
prior object files before building, with no backup (see the
counterexample). -/
theorem claim3_amended_prior_artifact_preserved :
    (∀ cfg fs env i,
      cfg.backup_existing = true →
      fs.lookup "nroff" = some i →
      (∀ e ∈ env.ccEffect, e.1 ≠ "nroff.backup") →
      (∀ e ∈ env.stripEffect, e.1 ≠ "nroff.backup") →
      (NroffBuilder.build cfg fs env).ok = false →
      FS.lookup (NroffBuilder.build cfg fs env).fs "nroff" = some i ∨
      FS.lookup (NroffBuilder.build cfg fs env).fs "nroff.backup" =
        some i) ∧
    (∀ cfg fs env i,
      cfg.backup_existing = true →
      fs.lookup "neqn" = some i →
      (∀ e ∈ env.yaccEffect, e.1 ≠ "neqn.backup") →
      (∀ e ∈ env.ccEffect, e.1 ≠ "neqn.backup") →
      (NeqnBuilder.build cfg fs env).ok = false →
      FS.lookup (NeqnBuilder.build cfg fs env).fs "neqn" = some i ∨
      FS.lookup (NeqnBuilder.build cfg fs env).fs "neqn.backup" =
        some i) := by
  constructor
  · intro cfg fs env i hb hi hc hs hfail
    rcases nrc_backup_cases cfg fs env i hb hi with ⟨hb1, hl⟩ | ⟨hb1, hr⟩
    · left
      have hfs : (NroffBuilder.build cfg fs env).fs =
          (NroffBuilder.backup_existing_executable cfg fs env).2 := by
        simp [NroffBuilder.build, hb1]
      rw [hfs]
      exact hl
    · right
      unfold NroffBuilder.build
      rw [if_neg (by simp [hb1])]
      split
      · exact hr
      · rw [nrc_buildCompile_frame cfg env _ hc hs]
        exact hr
  · intro cfg fs env i hb hi hy hc hfail
    rcases neqn_backup_cases cfg fs env i hb hi with ⟨hb1, hl⟩ | ⟨hb1, hr⟩
    · left
      have hfs : (NeqnBuilder.build cfg fs env).fs =
          (NeqnBuilder.backup_existing_executable cfg fs env).2 := by
        simp [NeqnBuilder.build, hb1]
      rw [hfs]
      exact hl
    · right
      unfold NeqnBuilder.build
      rw [if_neg (by simp [hb1])]
      split
      · exact hr
      · rw [neqn_buildGen_frame cfg env _ _ hy hc]
        exact hr

/-- Witness for the amended C3: a failing nroff link and a failing
neqn parser generation, both with a prior executable present and
backup enabled — the prior artifact survives as the backup. -/
theorem claim3_witness :
    (cfgN.backup_existing = true ∧
      FS.lookup fsN2 "nroff" = some (execFile 300 80) ∧
      (NroffBuilder.build cfgN fsN2 envNccFail).ok = false ∧
      (FS.lookup (NroffBuilder.build cfgN fsN2 envNccFail).fs "nroff" =
          some (execFile 300 80) ∨
        FS.lookup (NroffBuilder.build cfgN fsN2 envNccFail).fs
          "nroff.backup" = some (execFile 300 80))) ∧
    (cfgQ.backup_existing = true ∧
      FS.lookup fsQ2 "neqn" = some (execFile 100 70) ∧
      (NeqnBuilder.build cfgQ fsQ2 envQyaccFail).ok = false ∧
      (FS.lookup (NeqnBuilder.build cfgQ fsQ2 envQyaccFail).fs "neqn" =
          some (execFile 100 70) ∨
        FS.lookup (NeqnBuilder.build cfgQ fsQ2 envQyaccFail).fs
          "neqn.backup" = some (execFile 100 70))) := by
  have hc1 : ∀ e ∈ envNccFail.ccEffect, e.1 ≠ "nroff.backup" := by
    intro e he
    have he2 : e = ("a.out", execFile 500 90) := by
      simpa [envNccFail, envN] using he
    rw [he2]
    decide
  have hs1 : ∀ e ∈ envNccFail.stripEffect, e.1 ≠ "nroff.backup" := by
    intro e he
    have he2 : e = ("a.out", execFile 400 91) := by
      simpa [envNccFail, envN] using he
    rw [he2]
    decide
  have hy2 : ∀ e ∈ envQyaccFail.yaccEffect, e.1 ≠ "neqn.backup" := by
    intro e he
    rcases (by simpa [envQyaccFail, envQ] using he :
        e = ("y.tab.c", plainFile 200 61) ∨ e = ("y.tab.h", plainFile 50 62))
      with h | h <;> rw [h] <;> decide
  have hc2 : ∀ e ∈ envQyaccFail.ccEffect, e.1 ≠ "neqn.backup" := by
    intro e he
    rcases (by simpa [envQyaccFail, envQ] using he :
        e = ("a.out", execFile 600 63) ∨ e = ("ne1.o", plainFile 20 64))
      with h | h <;> rw [h] <;> decide
  have hf1 : (NroffBuilder.build cfgN fsN2 envNccFail).ok = false := by decide
  have hf2 : (NeqnBuilder.build cfgQ fsQ2 envQyaccFail).ok = false := by
    decide
  exact ⟨⟨rfl, by decide, hf1,
      claim3_amended_prior_artifact_preserved.1 cfgN fsN2 envNccFail
        (execFile 300 80) rfl (by decide) hc1 hs1 hf1⟩,
    ⟨rfl, by decide, hf2,
      claim3_amended_prior_artifact_preserved.2 cfgQ fsQ2 envQyaccFail
        (execFile 100 70) rfl (by decide) hy2 hc2 hf2⟩⟩

end Claim3

end Otroff
